import Mathlib

/-! BinaryLane provider of dnscontrol: record translation, policy filter, correction planner.

A shallow embedding of `providers/binarylane/binarylaneProvider.go` and
`providers/binarylane/api.go`.

* Go `string` values are Lean `String`s.  Every separator the code looks for
  (space, dot, double quote, decimal digits) is ASCII, so working on code
  points agrees with Go working on the bytes of valid UTF-8.
* Go machine integers are `Nat`/`Int` with the conversions `uint8`, `uint16`,
  `uint32` written out as remainders.
* A Go function that can panic returns `Except String _`, the error side
  holding the panic message; a Go `error` result is an `Option GoError`.
* Closures stored in a correction are represented by the call they make
  (`Op`), warnings printed through `printer.Warnf` are collected in a list.
-/

namespace binarylane

/-! ## Go standard library: `strings`, `strconv`, `sort` -/

namespace strings

/-- The Go function `strings.HasSuffix`. -/
def HasSuffix (s suffix : String) : Bool :=
  suffix.data.isSuffixOf s.data

/-- The Go function `strings.TrimSuffix`: drop `suffix` from the end of `s` once, when present. -/
def TrimSuffix (s suffix : String) : String :=
  if HasSuffix s suffix then ⟨s.data.take (s.data.length - suffix.data.length)⟩ else s

/-- Splitting a character list at every occurrence of `sep`. -/
def splitChars (sep : Char) : List Char → List (List Char)
  | [] => [[]]
  | c :: cs =>
    if c = sep then [] :: splitChars sep cs
    else
      match splitChars sep cs with
      | [] => [[c]]
      | w :: ws => (c :: w) :: ws

/-- The Go function `strings.Split` for a separator of one character. -/
def Split (s : String) (sep : Char) : List String :=
  (splitChars sep s.data).map String.mk

/-- The Go function `strings.ReplaceAll` for an old string of one character. -/
def ReplaceAll (s : String) (old : Char) (new : String) : String :=
  ⟨s.data.flatMap (fun c => if c = old then new.data else [c])⟩

end strings

namespace strconv

/-- The two causes recorded in a Go `strconv.NumError`. -/
inductive NumError where
  | ErrSyntax
  | ErrRange
  deriving DecidableEq, Repr

/-- The value `maxUint64/10 + 1` used by `strconv.ParseUint` in base 10. -/
def cutoff : Nat := (2 ^ 64 - 1) / 10 + 1

/-- The digit loop of `strconv.ParseUint` in base 10: a character that is not a
decimal digit ends the loop with `(0, ErrSyntax)`, an accumulator leaving the
range ends it at once with `(maxVal, ErrRange)`. -/
def parseLoop (maxVal : Nat) : List Char → Nat → Nat × Option NumError
  | [], n => (n, none)
  | c :: cs, n =>
    if c.isDigit then
      if n ≥ cutoff then (maxVal, some .ErrRange)
      else
        let n1 := n * 10 + (c.toNat - '0'.toNat)
        if n1 ≥ 2 ^ 64 ∨ n1 > maxVal then (maxVal, some .ErrRange)
        else parseLoop maxVal cs n1
    else (0, some .ErrSyntax)

/-- The Go function `strconv.ParseUint(s, 10, bitSize)`: the value and the error, both returned. -/
def ParseUint (s : String) (bitSize : Nat) : Nat × Option NumError :=
  if s.data = [] then (0, some .ErrSyntax)
  else parseLoop (2 ^ bitSize - 1) s.data 0

/-- The Go function `strconv.Itoa`, also the verb `%d` of `fmt.Sprintf`. -/
def Itoa (n : Int) : String :=
  match n with
  | Int.ofNat m => Nat.repr m
  | Int.negSucc m => "-" ++ Nat.repr (m + 1)

end strconv

namespace sort

/-- Go string comparison `a < b`: lexicographic on the encoded text. -/
def lessChars : List Char → List Char → Bool
  | [], [] => false
  | [], _ :: _ => true
  | _ :: _, [] => false
  | a :: as, b :: bs =>
    if a.val < b.val then true
    else if b.val < a.val then false
    else lessChars as bs

/-- Go string comparison `a <= b`. -/
def leString (a b : String) : Prop := lessChars b.data a.data = false

instance : DecidableRel leString := fun a b =>
  inferInstanceAs (Decidable (lessChars b.data a.data = false))

/-- The Go function `sort.Strings`: the list in increasing order. -/
def Strings (l : List String) : List String :=
  l.insertionSort leString

end sort

/-! ## Data model -/

/-- A Go `error` value, represented by its message. -/
abbrev GoError := String

/-- The constant `minimumTTL`. -/
def minimumTTL : Nat := 600

/-- The Go conversion `uint8(x)`. -/
def uint8 (x : Int) : Nat := (x % 256).toNat

/-- The Go conversion `uint16(x)`. -/
def uint16 (x : Int) : Nat := (x % 65536).toNat

/-- The Go conversion `uint32(x)`. -/
def uint32 (x : Int) : Nat := (x % 4294967296).toNat

/-- The struct `domainRecord` of `api.go`: a record as the remote system holds it. -/
structure domainRecord where
  ID : Int := 0
  Name : String := ""
  Type_ : String := ""
  Content : String := ""
  TTL : Int := 0
  Prio : Int := 0
  Weight : Int := 0
  Port : Int := 0
  Flags : Int := 0
  Tag : String := ""
  deriving DecidableEq, Repr

/-- The fields of `models.RecordConfig` that the provider reads or writes. -/
structure RecordConfig where
  Type_ : String := ""
  Name : String := ""
  NameFQDN : String := ""
  target : String := ""
  TTL : Nat := 0
  Metadata : List (String × String) := []
  MxPreference : Nat := 0
  SrvPriority : Nat := 0
  SrvWeight : Nat := 0
  SrvPort : Nat := 0
  CaaTag : String := ""
  CaaFlag : Nat := 0
  TlsaUsage : Nat := 0
  TlsaSelector : Nat := 0
  TlsaMatchingType : Nat := 0
  SvcPriority : Nat := 0
  SvcParams : String := ""
  Original : Option domainRecord := none
  deriving DecidableEq, Repr

/-- The fields of `models.DomainConfig` that the provider reads or writes. -/
structure DomainConfig where
  Name : String
  Records : List RecordConfig
  deriving DecidableEq, Repr

namespace RecordConfig

/-- Modelled from the spec: `models.RecordConfig.GetLabel` is not among the
source files; it reads the label, the host part relative to the zone. -/
def GetLabel (rc : RecordConfig) : String := rc.Name

/-- Modelled from the spec: `models.RecordConfig.GetLabelFQDN` is not among the
source files; it reads the fully-qualified owner name. -/
def GetLabelFQDN (rc : RecordConfig) : String := rc.NameFQDN

/-- Modelled from the spec: `models.RecordConfig.GetTargetField` is not among the
source files; it reads the target. -/
def GetTargetField (rc : RecordConfig) : String := rc.target

/-- Modelled from the spec: `models.RecordConfig.SetTarget` is not among the
source files; the spec has the target be the raw content and gives the
conversion no other failure than a short token list, so the target is stored
and no error is returned. -/
def SetTarget (rc : RecordConfig) (target : String) : RecordConfig × Option GoError :=
  ({ rc with target := target }, none)

/-- Modelled from the spec: `models.RecordConfig.SetTargetTXT` is not among the
source files; for TXT the spec has "target = raw content, no escaping changes". -/
def SetTargetTXT (rc : RecordConfig) (s : String) : RecordConfig × Option GoError :=
  ({ rc with target := s }, none)

/-- Modelled from the spec: `models.RecordConfig.GetTargetTXTJoined` is not among
the source files; the spec has the native data of every type without a
rewriting rule, TXT included, be the target. -/
def GetTargetTXTJoined (rc : RecordConfig) : String := rc.target

end RecordConfig

/-- A value stored in `requestParams` (`map[string]any`): a string or an integer. -/
inductive Any where
  | str (s : String)
  | num (n : Int)
  deriving DecidableEq, Repr

/-- The type `requestParams`: a map from keys to values, as an association list with unique keys. -/
abbrev requestParams := List (String × Any)

/-- Map assignment `req[k] = v`. -/
def requestParams.set (req : requestParams) (k : String) (v : Any) : requestParams :=
  if req.any (fun p => p.1 == k) then
    req.map (fun p => if p.1 == k then (k, v) else p)
  else req ++ [(k, v)]

/-- Map lookup `req[k]`. -/
def requestParams.get? (req : requestParams) (k : String) : Option Any :=
  req.lookup k

/-! ## Policy filter: `fixTTL`, `checkNSModifications` -/

/-- The function `fixTTL`. -/
def fixTTL (ttl : Nat) : Nat :=
  if ttl > minimumTTL then ttl else minimumTTL

/-- The text `checkNSModifications` prints for a dropped record. -/
def nsWarning (target : String) : String :=
  "binarylane does not support modifying NS records on base domain. " ++ target ++
    " will not be added.\n"

/-- The guard of the outer `if` in `checkNSModifications`: an NS record at the zone apex. -/
def isApexNS (zone : String) (rec : RecordConfig) : Bool :=
  rec.Type_ == "NS" && rec.GetLabelFQDN == zone

/-- The guard of the inner `if` in `checkNSModifications`. -/
def hasDefaultNSSuffix (rec : RecordConfig) : Bool :=
  strings.HasSuffix rec.GetTargetField ".binarylane.com.au"

/-- The loop of `checkNSModifications`: `newList` and the warnings printed so far are the state. -/
def checkNSLoop (zone : String) :
    List RecordConfig → List RecordConfig → List String → List RecordConfig × List String
  | [], newList, warns => (newList, warns)
  | rec :: rest, newList, warns =>
    if rec.Type_ == "NS" && rec.GetLabelFQDN == zone then
      if strings.HasSuffix rec.GetTargetField ".binarylane.com.au" then
        checkNSLoop zone rest newList (warns ++ [nsWarning rec.GetTargetField])
      else
        checkNSLoop zone rest newList warns
    else
      checkNSLoop zone rest (newList ++ [rec]) warns

/-- The function `checkNSModifications`: the updated domain and the warnings printed. -/
def checkNSModifications (dc : DomainConfig) : DomainConfig × List String :=
  let (newList, warns) := checkNSLoop dc.Name dc.Records [] []
  ({ dc with Records := newList }, warns)

/-! ## Nameservers: `getNameservers` -/

/-- The function `getNameservers`, given what fetching and decoding the
response produced: an error, or the list `ns.Nameservers`. -/
def getNameservers (resp : Except GoError (List String)) : Except GoError (List String) :=
  match resp with
  | .error e => .error e
  | .ok ns =>
    let sorted := sort.Strings ns
    .ok (sorted.map (fun nameserver => strings.TrimSuffix nameserver "."))

/-! ## Record translator: `toRc`, `toReq` -/

/-- Indexing `c[i]` of a Go slice of strings: a panic when `i` is out of range. -/
def index (c : List String) (i : Nat) : Except String String :=
  match c.get? i with
  | some x => .ok x
  | none => .error "runtime error: index out of range"

/-- The function `toRc`.  `SetLabel short origin` stands for
`models.RecordConfig.SetLabel`, which is not among the source files: it gives
the label and the fully-qualified name that the call stores. -/
def toRc (SetLabel : String → String → String × String) (domain : String) (r : domainRecord) :
    Except String (RecordConfig × Option GoError) :=
  let rc : RecordConfig :=
    { Type_ := r.Type_
      TTL := uint32 r.TTL
      MxPreference := uint16 r.Prio
      SrvPriority := uint16 r.Prio
      SrvWeight := uint16 r.Weight
      SrvPort := uint16 r.Port
      CaaTag := r.Tag
      CaaFlag := uint8 r.Flags
      Original := some r }
  let rc := { rc with Name := (SetLabel r.Name domain).1, NameFQDN := (SetLabel r.Name domain).2 }
  if r.Type_ = "TXT" then
    .ok (rc.SetTargetTXT r.Content)
  else if r.Type_ = "MX" ∨ r.Type_ = "CNAME" ∨ r.Type_ = "ALIAS" ∨ r.Type_ = "NS" then
    if strings.HasSuffix r.Content "." then .ok (rc.SetTarget r.Content)
    else .ok (rc.SetTarget (r.Content ++ "."))
  else if r.Type_ = "CAA" then do
    let c := strings.Split r.Content ' '
    let c0 ← index c 0
    let caaFlag := (strconv.ParseUint c0 8).1
    let rc := { rc with CaaFlag := caaFlag % 256 }
    let c1 ← index c 1
    let rc := { rc with CaaTag := c1 }
    let c2 ← index c 2
    pure (rc.SetTarget (strings.ReplaceAll c2 '"' ""))
  else if r.Type_ = "TLSA" then do
    let c := strings.Split r.Content ' '
    let c0 ← index c 0
    let tlsaUsage := (strconv.ParseUint c0 8).1
    let rc := { rc with TlsaUsage := tlsaUsage % 256 }
    let c1 ← index c 1
    let tlsaSelector := (strconv.ParseUint c1 8).1
    let rc := { rc with TlsaSelector := tlsaSelector % 256 }
    let c2 ← index c 2
    let tlsaMatchingType := (strconv.ParseUint c2 8).1
    let rc := { rc with TlsaMatchingType := tlsaMatchingType % 256 }
    let c3 ← index c 3
    pure (rc.SetTarget c3)
  else if r.Type_ = "SRV" then do
    let c := strings.Split r.Content ' '
    let c0 ← index c 0
    let srvWeight := (strconv.ParseUint c0 16).1
    let rc := { rc with SrvWeight := srvWeight % 65536 }
    let c1 ← index c 1
    let srvPort := (strconv.ParseUint c1 16).1
    let rc := { rc with SrvPort := srvPort % 65536 }
    let c2 ← index c 2
    pure (rc.SetTarget c2)
  else if r.Type_ = "HTTPS" ∨ r.Type_ = "SVCB" then do
    let c := strings.Split r.Content ' '
    let c0 ← index c 0
    let svcPriority := (strconv.ParseUint c0 16).1
    let rc := { rc with SvcPriority := svcPriority % 65536 }
    let c2 ← index c 2
    let rc := { rc with SvcParams := c2 }
    let c1 ← index c 1
    pure (rc.SetTarget c1)
  else
    .ok (rc.SetTarget r.Content)

/-- The verb `%d` of `fmt.Sprintf` on an unsigned value. -/
def fmtD (n : Nat) : String := Nat.repr n

/-- The function `toReq`: the parameters, or the error returned with a nil map. -/
def toReq (rc : RecordConfig) : Except GoError requestParams :=
  let req : requestParams :=
    [("type", .str rc.Type_), ("name", .str rc.GetLabel), ("data", .str rc.GetTargetField),
     ("ttl", .num rc.TTL)]
  if rc.Type_ = "A" ∨ rc.Type_ = "AAAA" ∨ rc.Type_ = "NS" ∨ rc.Type_ = "ALIAS" ∨
      rc.Type_ = "CNAME" then
    .ok req
  else if rc.Type_ = "TXT" then
    .ok (req.set "data" (.str rc.GetTargetTXTJoined))
  else if rc.Type_ = "MX" then
    .ok (req.set "priority" (.num rc.MxPreference))
  else if rc.Type_ = "SRV" then
    let req := req.set "priority" (.str (strconv.Itoa rc.SrvPriority))
    .ok (req.set "data"
      (.str (fmtD rc.SrvWeight ++ " " ++ fmtD rc.SrvPort ++ " " ++ rc.GetTargetField)))
  else if rc.Type_ = "CAA" then
    .ok (req.set "data"
      (.str (fmtD rc.CaaFlag ++ " " ++ rc.CaaTag ++ " \"" ++ rc.GetTargetField ++ "\"")))
  else if rc.Type_ = "TLSA" then
    .ok (req.set "data"
      (.str (fmtD rc.TlsaUsage ++ " " ++ fmtD rc.TlsaSelector ++ " " ++
        fmtD rc.TlsaMatchingType ++ " " ++ rc.GetTargetField)))
  else if rc.Type_ = "HTTPS" ∨ rc.Type_ = "SVCB" then
    .ok (req.set "data"
      (.str (fmtD rc.SvcPriority ++ " " ++ rc.GetTargetField ++ " " ++ rc.SvcParams)))
  else
    .error ("binarylane.toReq rtype \"" ++ rc.Type_ ++ "\" unimplemented")

/-! ## Correction planner: `GetZoneRecordsCorrections` -/

/-- The type `diff2.Verb`, an integer. -/
abbrev Verb := Int

/-- The verb `diff2.CREATE`. -/
def CREATE : Verb := 1

/-- The verb `diff2.CHANGE`. -/
def CHANGE : Verb := 2

/-- The verb `diff2.DELETE`. -/
def DELETE : Verb := 3

/-- The verb `diff2.REPORT`. -/
def REPORT : Verb := 4

/-- The fields of `diff2.Change` that the provider reads. -/
structure Change where
  Type_ : Verb
  Old : List RecordConfig := []
  New : List RecordConfig := []
  Msgs : List String := []
  MsgsJoined : String := ""
  deriving DecidableEq, Repr

/-- The call made by the closure `F` of a correction. -/
inductive Op where
  | createRecord (domain : String) (rec : requestParams)
  | modifyRecord (domain : String) (recordID : Int) (rec : requestParams)
  | deleteRecord (domain : String) (recordID : Int)
  deriving DecidableEq, Repr

/-- The struct `models.Correction`: a message and the operation bound to it, if any. -/
structure Correction where
  Msg : String
  F : Option Op := none
  deriving DecidableEq, Repr

/-- The function `genComparable`. -/
def genComparable (rec : RecordConfig) : String :=
  if rec.Type_ = "PORKBUN_URLFWD" then
    "type=" ++ (rec.Metadata.lookup "type").getD "" ++
      " includePath=" ++ (rec.Metadata.lookup "includePath").getD "" ++
      " wildcard=" ++ (rec.Metadata.lookup "wildcard").getD ""
  else ""

/-- Indexing `recs[0]` of a Go slice of records: a panic when the slice is empty. -/
def first (recs : List RecordConfig) : Except String RecordConfig :=
  match recs with
  | rec :: _ => .ok rec
  | [] => .error "runtime error: index out of range"

/-- The expression `rec.Original.(*domainRecord).ID`: a panic when `Original` holds no native record. -/
def originalID (rec : RecordConfig) : Except String Int :=
  match rec.Original with
  | some r => .ok r.ID
  | none => .error "interface conversion: interface is nil, not *binarylane.domainRecord"

/-- What one pass through the loop body of `GetZoneRecordsCorrections` does:
append a correction, or leave the function with `nil, 0, err`. -/
inductive Step where
  | next (corr : Correction)
  | fail (err : GoError)
  deriving DecidableEq, Repr

/-- The body of the loop over `changes` in `GetZoneRecordsCorrections`. -/
def planChange (zone : String) (change : Change) : Except String Step :=
  if change.Type_ = REPORT then
    .ok (.next { Msg := change.MsgsJoined, F := none })
  else if change.Type_ = CREATE then do
    let new0 ← first change.New
    match toReq new0 with
    | .error err => pure (.fail err)
    | .ok req =>
      let msg ← index change.Msgs 0
      pure (.next { Msg := msg, F := some (.createRecord zone req) })
  else if change.Type_ = CHANGE then do
    let old0 ← first change.Old
    let id ← originalID old0
    let new0 ← first change.New
    match toReq new0 with
    | .error err => pure (.fail err)
    | .ok req =>
      let msg ← index change.Msgs 0
      pure (.next { Msg := msg ++ ", binarylane ID: " ++ strconv.Itoa id,
                    F := some (.modifyRecord zone id req) })
  else if change.Type_ = DELETE then do
    let old0 ← first change.Old
    let id ← originalID old0
    let msg ← index change.Msgs 0
    pure (.next { Msg := msg ++ ", binarylane ID: " ++ strconv.Itoa id,
                  F := some (.deleteRecord zone id) })
  else
    .error ("unhandled change.Type " ++ strconv.Itoa change.Type_)

/-- The loop over `changes` in `GetZoneRecordsCorrections`, `corrections` being
the slice built so far: a panic, the error of `return nil, 0, err`, or the
finished slice. -/
def planLoop (zone : String) :
    List Change → List Correction → Except String (Except GoError (List Correction))
  | [], corrections => .ok (.ok corrections)
  | change :: rest, corrections =>
    match planChange zone change with
    | .error p => .error p
    | .ok (.fail err) => .ok (.error err)
    | .ok (.next corr) => planLoop zone rest (corrections ++ [corr])

/-- The result type of `diff2.ByRecord`: the change groups, the count of actual changes, the error. -/
abbrev DiffResult := List Change × Int × Option GoError

/-- The type of `diff2.ByRecord`, which is not among the source files. -/
abbrev Differ := List RecordConfig → DomainConfig → (RecordConfig → String) → DiffResult

/-- The first two steps of `GetZoneRecordsCorrections`: `checkNSModifications`,
then `fixTTL` on every record left.  The domain handed to the differ and the
warnings printed. -/
def prepare (dc : DomainConfig) : DomainConfig × List String :=
  let (dc1, warns) := checkNSModifications dc
  ({ dc1 with Records := dc1.Records.map (fun record => { record with TTL := fixTTL record.TTL }) },
   warns)

/-- What a call of `GetZoneRecordsCorrections` leaves: the domain as updated in
place, the warnings printed, and a panic or the three values returned. -/
structure Outcome where
  dc : DomainConfig
  warnings : List String
  result : Except String (List Correction × Int × Option GoError)

/-- The function `GetZoneRecordsCorrections`, `ByRecord` standing for `diff2.ByRecord`. -/
def GetZoneRecordsCorrections (ByRecord : Differ) (dc : DomainConfig)
    (existingRecords : List RecordConfig) : Outcome :=
  let (dc2, warns) := prepare dc
  match ByRecord existingRecords dc2 genComparable with
  | (_, _, some err) => { dc := dc2, warnings := warns, result := .ok ([], 0, some err) }
  | (changes, actualChangeCount, none) =>
    match planLoop dc2.Name changes [] with
    | .error p => { dc := dc2, warnings := warns, result := .error p }
    | .ok (.error err) => { dc := dc2, warnings := warns, result := .ok ([], 0, some err) }
    | .ok (.ok corrections) =>
      { dc := dc2, warnings := warns, result := .ok (corrections, actualChangeCount, none) }

/-- The function `GetZoneRecords`, given what `getRecords` produced. -/
def GetZoneRecords (SetLabel : String → String → String × String) (domain : String)
    (fetched : Except GoError (List domainRecord)) :
    Except String (Except GoError (List RecordConfig)) :=
  match fetched with
  | .error err => .ok (.error err)
  | .ok records =>
    let rec go : List domainRecord → List RecordConfig →
        Except String (Except GoError (List RecordConfig))
      | [], existingRecords => .ok (.ok existingRecords)
      | r :: rest, existingRecords =>
        match toRc SetLabel domain r with
        | .error p => .error p
        | .ok (_, some err) => .ok (.error err)
        | .ok (newr, none) => go rest (existingRecords ++ [newr])
    go records []

/-! ## Vocabulary of the statements -/

/-- The number of space-separated tokens `toRc` indexes for a record type. -/
def requiredTokens (t : String) : Nat :=
  if t = "CAA" ∨ t = "SRV" ∨ t = "HTTPS" ∨ t = "SVCB" then 3
  else if t = "TLSA" then 4
  else 0

/-- The record types `toReq` has a case for. -/
def supportedTypes : List String :=
  ["A", "AAAA", "NS", "ALIAS", "CNAME", "TXT", "MX", "SRV", "CAA", "TLSA", "SVCB", "HTTPS"]

/-- A label function for the worked examples: the apex is written `@`, any
other label is kept and its fully-qualified name is the label, a dot, the zone. -/
def exampleSetLabel (short origin : String) : String × String :=
  if short = "" ∨ short = "@" then ("@", origin) else (short, short ++ "." ++ origin)

/-- The record `toRc` holds before its switch on the type. -/
def baseRc (SetLabel : String → String → String × String) (domain : String) (r : domainRecord) :
    RecordConfig :=
  { Type_ := r.Type_
    Name := (SetLabel r.Name domain).1
    NameFQDN := (SetLabel r.Name domain).2
    TTL := uint32 r.TTL
    MxPreference := uint16 r.Prio
    SrvPriority := uint16 r.Prio
    SrvWeight := uint16 r.Weight
    SrvPort := uint16 r.Port
    CaaTag := r.Tag
    CaaFlag := uint8 r.Flags
    Original := some r }

/-- How a numeric token reaches a field of `bits` bits: the value of
`strconv.ParseUint` is kept with the error dropped, so the field is 0 after a
syntax error, the largest value of the width after a range error, and the
number read otherwise. -/
def degrades (tok : String) (bits : Nat) (v : Nat) : Prop :=
  ((strconv.ParseUint tok bits).2 = some .ErrSyntax → v = 0) ∧
  ((strconv.ParseUint tok bits).2 = some .ErrRange → v = 2 ^ bits - 1) ∧
  ((strconv.ParseUint tok bits).2 = none → v = (strconv.ParseUint tok bits).1)

/-- The `i`-th space-separated token of a content string, empty when absent. -/
def token (content : String) (i : Nat) : String :=
  (strings.Split content ' ').getD i ""





/-- A change group as the differ produces it, for existing records built by
`toRc`: a report; or a CREATE with its new record and a message; or a CHANGE
with its old record (holding the native record it came from), its new record
and a message; or a DELETE with its old record and a message. -/
def Change.wellFormed (ch : Change) : Bool :=
  ch.Type_ == REPORT ||
  (ch.Type_ == CREATE && !ch.New.isEmpty && !ch.Msgs.isEmpty) ||
  (ch.Type_ == CHANGE && (ch.Old.head?.bind (fun o => o.Original)).isSome && !ch.New.isEmpty &&
    !ch.Msgs.isEmpty) ||
  (ch.Type_ == DELETE && (ch.Old.head?.bind (fun o => o.Original)).isSome && !ch.Msgs.isEmpty)

/-- The new record of a CREATE or CHANGE group is one `toReq` fails for. -/
def Change.toReqFails (ch : Change) : Bool :=
  (ch.Type_ == CREATE || ch.Type_ == CHANGE) &&
  match ch.New with
  | new0 :: _ => !(toReq new0).toBool
  | [] => false

/-- A differ for the worked examples, standing in for `diff2.ByRecord`: a
desired record with no existing record of its name and type gives a CREATE,
one whose existing record differs in target or TTL gives a CHANGE, and after
these every existing record with no desired record of its name and type gives
a DELETE. -/
def exampleDiffer : Differ := fun existing dc _ =>
  let sameSlot (a b : RecordConfig) : Bool := a.NameFQDN == b.NameFQDN && a.Type_ == b.Type_
  let wanted : List Change := dc.Records.filterMap (fun d =>
    match existing.find? (fun o => sameSlot o d) with
    | none =>
      some { Type_ := CREATE, New := [d],
             Msgs := ["CREATE " ++ d.NameFQDN ++ " " ++ d.Type_ ++ " " ++ d.target] }
    | some o =>
      if o.target = d.target ∧ o.TTL = d.TTL then none
      else
        some { Type_ := CHANGE, Old := [o], New := [d],
               Msgs := ["CHANGE " ++ d.NameFQDN ++ " " ++ d.Type_ ++ " (" ++ o.target ++
                 ") -> (" ++ d.target ++ ")"] })
  let gone : List Change := existing.filterMap (fun o =>
    if dc.Records.any (fun d => sameSlot o d) then none
    else
      some { Type_ := DELETE, Old := [o],
             Msgs := ["DELETE " ++ o.NameFQDN ++ " " ++ o.Type_ ++ " " ++ o.target] })
  (wanted ++ gone, ((wanted ++ gone).length : Int), none)

/-- The native record of the worked example: `www A 1.2.3.4`, TTL 600, identifier 10. -/
def exampleNative : domainRecord :=
  { ID := 10, Name := "www", Type_ := "A", Content := "1.2.3.4", TTL := 600 }

/-- A second native record of the worked example: `old A 1.1.1.1`, TTL 600, identifier 20. -/
def exampleNativeOld : domainRecord :=
  { ID := 20, Name := "old", Type_ := "A", Content := "1.1.1.1", TTL := 600 }

/-- The existing record `toRc` builds from `exampleNative`. -/
def exampleExisting : RecordConfig :=
  { Type_ := "A", Name := "www", NameFQDN := "www.example.com", target := "1.2.3.4", TTL := 600,
    Original := some exampleNative }

/-- The existing record `toRc` builds from `exampleNativeOld`. -/
def exampleExistingOld : RecordConfig :=
  { Type_ := "A", Name := "old", NameFQDN := "old.example.com", target := "1.1.1.1", TTL := 600,
    Original := some exampleNativeOld }

/-- The desired record `www A 1.2.3.5`, TTL 600. -/
def exampleWww : RecordConfig :=
  { Type_ := "A", Name := "www", NameFQDN := "www.example.com", target := "1.2.3.5", TTL := 600 }

/-- The desired record `api A 9.9.9.9`, TTL 600. -/
def exampleApi : RecordConfig :=
  { Type_ := "A", Name := "api", NameFQDN := "api.example.com", target := "9.9.9.9", TTL := 600 }

/-- A desired record of a type `toReq` has no case for: `ptr PTR host.example.com.`, TTL 600. -/
def examplePtr : RecordConfig :=
  { Type_ := "PTR", Name := "ptr", NameFQDN := "ptr.example.com", target := "host.example.com.",
    TTL := 600 }

/-- The desired zone of the worked example: `www` changed, `api` new, `old` gone. -/
def exampleDesired : DomainConfig :=
  { Name := "example.com", Records := [exampleWww, exampleApi] }

/-- The desired zone of the worked example with the PTR record added at the end. -/
def exampleDesiredPtr : DomainConfig :=
  { Name := "example.com", Records := [exampleWww, exampleApi, examplePtr] }

/-- The CHANGE group of the worked example. -/
def exampleChange : Change :=
  { Type_ := CHANGE, Old := [exampleExisting], New := [exampleWww],
    Msgs := ["CHANGE www.example.com A (1.2.3.4) -> (1.2.3.5)"] }

/-- The CREATE group of the worked example. -/
def exampleCreate : Change :=
  { Type_ := CREATE, New := [exampleApi], Msgs := ["CREATE api.example.com A 9.9.9.9"] }

/-- The CREATE group of the PTR record, which `toReq` fails for. -/
def exampleCreatePtr : Change :=
  { Type_ := CREATE, New := [examplePtr],
    Msgs := ["CREATE ptr.example.com PTR host.example.com."] }

/-- The DELETE group of the worked example. -/
def exampleDelete : Change :=
  { Type_ := DELETE, Old := [exampleExistingOld], Msgs := ["DELETE old.example.com A 1.1.1.1"] }

/-- The corrections planned in the worked example, in the order of the change groups. -/
def exampleCorrections : List Correction :=
  [{ Msg := "CHANGE www.example.com A (1.2.3.4) -> (1.2.3.5), binarylane ID: 10",
     F := some (.modifyRecord "example.com" 10
       [("type", .str "A"), ("name", .str "www"), ("data", .str "1.2.3.5"), ("ttl", .num 600)]) },
   { Msg := "CREATE api.example.com A 9.9.9.9",
     F := some (.createRecord "example.com"
       [("type", .str "A"), ("name", .str "api"), ("data", .str "9.9.9.9"), ("ttl", .num 600)]) },
   { Msg := "DELETE old.example.com A 1.1.1.1, binarylane ID: 20",
     F := some (.deleteRecord "example.com" 20) }]

/-- Decoding a JSON value into a Go `string` field, as `json.Unmarshal` does
for a field of `domainRecord`: an absent key leaves the empty string, a string
is stored, and a number is a type error that leaves the empty string.  The
flag tells whether the error arose. -/
def decodeString : Option Any → String × Bool
  | none => ("", false)
  | some (.str s) => (s, false)
  | some (.num _) => ("", true)

/-- Decoding a JSON value into a Go `int32` field, as `json.Unmarshal` does for
a field of `domainRecord`: an absent key leaves 0, a number in range is stored,
and a number out of range or a string is a type error that leaves 0. -/
def decodeInt32 : Option Any → Int × Bool
  | none => (0, false)
  | some (.num n) => if -2147483648 ≤ n ∧ n < 2147483648 then (n, false) else (0, true)
  | some (.str _) => (0, true)

/-- Decoding a JSON value into a Go `int64` field, as `decodeInt32` for 64 bits. -/
def decodeInt64 : Option Any → Int × Bool
  | none => (0, false)
  | some (.num n) =>
    if -9223372036854775808 ≤ n ∧ n < 9223372036854775808 then (n, false) else (0, true)
  | some (.str _) => (0, true)

/-- Reading request parameters as a native record: the parameters are decoded
the way `getRecords` decodes a response, by `json.Unmarshal` into
`domainRecord`, each field taken from the parameter under its JSON name.  The
record decoded, and the error returned when some field could not be decoded. -/
def native (req : requestParams) : domainRecord × Option GoError :=
  let id := decodeInt64 (req.get? "id")
  let name := decodeString (req.get? "name")
  let type := decodeString (req.get? "type")
  let data := decodeString (req.get? "data")
  let ttl := decodeInt32 (req.get? "ttl")
  let priority := decodeInt32 (req.get? "priority")
  let weight := decodeInt32 (req.get? "weight")
  let port := decodeInt32 (req.get? "port")
  let flags := decodeInt32 (req.get? "flags")
  let tag := decodeString (req.get? "tag")
  ({ ID := id.1, Name := name.1, Type_ := type.1, Content := data.1, TTL := ttl.1,
     Prio := priority.1, Weight := weight.1, Port := port.1, Flags := flags.1, Tag := tag.1 },
   if id.2 || name.2 || type.2 || data.2 || ttl.2 || priority.2 || weight.2 || port.2 ||
       flags.2 || tag.2 then
     some "json: cannot unmarshal value into Go struct field of domainRecord"
   else none)

/-- A native record `toRc` and `toReq` can take round: its type is one of the
supported ones, its content has the tokens its type requires, its TTL is a
non-negative 32-bit signed number, and its name is one the label function
leaves as it is once set. -/
def domainRecord.wellFormed (SetLabel : String → String → String × String) (domain : String)
    (r : domainRecord) : Prop :=
  r.Type_ ∈ supportedTypes ∧
  requiredTokens r.Type_ ≤ (strings.Split r.Content ' ').length ∧
  0 ≤ r.TTL ∧ r.TTL < 2 ^ 31 ∧
  SetLabel (SetLabel r.Name domain).1 domain = SetLabel r.Name domain

/-- The native record carries nothing in the fields its type does not use: a
priority only for MX and SRV, a weight and a port only for SRV, flags and a tag
only for CAA. -/
def domainRecord.unusedFieldsZero (r : domainRecord) : Prop :=
  (r.Type_ ≠ "MX" → r.Type_ ≠ "SRV" → r.Prio = 0) ∧
  (r.Type_ ≠ "SRV" → r.Weight = 0 ∧ r.Port = 0) ∧
  (r.Type_ ≠ "CAA" → r.Flags = 0 ∧ r.Tag = "")

/-- Two canonical records agree on type, label, TTL and target and on the
fields specific to their type. -/
def sameOwnFields (a b : RecordConfig) : Prop :=
  a.Type_ = b.Type_ ∧ a.Name = b.Name ∧ a.NameFQDN = b.NameFQDN ∧ a.TTL = b.TTL ∧
  a.target = b.target ∧
  (a.Type_ = "MX" → a.MxPreference = b.MxPreference) ∧
  (a.Type_ = "SRV" →
    a.SrvPriority = b.SrvPriority ∧ a.SrvWeight = b.SrvWeight ∧ a.SrvPort = b.SrvPort) ∧
  (a.Type_ = "CAA" → a.CaaFlag = b.CaaFlag ∧ a.CaaTag = b.CaaTag) ∧
  (a.Type_ = "TLSA" → a.TlsaUsage = b.TlsaUsage ∧ a.TlsaSelector = b.TlsaSelector ∧
    a.TlsaMatchingType = b.TlsaMatchingType) ∧
  (a.Type_ = "SVCB" ∨ a.Type_ = "HTTPS" →
    a.SvcPriority = b.SvcPriority ∧ a.SvcParams = b.SvcParams)

/-- Two canonical records agree on type, label, TTL, target and every type-specific field. -/
def sameCanonical (a b : RecordConfig) : Prop :=
  a.Type_ = b.Type_ ∧ a.Name = b.Name ∧ a.NameFQDN = b.NameFQDN ∧ a.TTL = b.TTL ∧
  a.target = b.target ∧ a.MxPreference = b.MxPreference ∧
  a.SrvPriority = b.SrvPriority ∧ a.SrvWeight = b.SrvWeight ∧ a.SrvPort = b.SrvPort ∧
  a.CaaFlag = b.CaaFlag ∧ a.CaaTag = b.CaaTag ∧
  a.TlsaUsage = b.TlsaUsage ∧ a.TlsaSelector = b.TlsaSelector ∧
  a.TlsaMatchingType = b.TlsaMatchingType ∧
  a.SvcPriority = b.SvcPriority ∧ a.SvcParams = b.SvcParams

/-- The round trip of one native record: `toRc`, `toReq`, the parameters
decoded as a native record without error, `toRc` again, and the two canonical
records compared. -/
def roundTrips (SetLabel : String → String → String × String) (domain : String)
    (r : domainRecord) : Prop :=
  ∃ rc req r' rc', toRc SetLabel domain r = .ok (rc, none) ∧ toReq rc = .ok req ∧
    native req = (r', none) ∧ toRc SetLabel domain r' = .ok (rc', none) ∧
    sameOwnFields rc rc' ∧ (r.unusedFieldsZero → sameCanonical rc rc')

/-- The target `toRc` gives a name-valued record: the content with a final dot. -/
def dotted (content : String) : String :=
  if strings.HasSuffix content "." then content else content ++ "."

/-- The SRV record of the worked example: `5 5060 sip.example.com` with priority 10. -/
def exampleSRV : domainRecord :=
  { ID := 7, Name := "_sip._tcp", Type_ := "SRV", Content := "5 5060 sip.example.com",
    TTL := 600, Prio := 10 }

/-- The canonical record `toRc` builds from `exampleSRV` in zone `example.com`. -/
def exampleSRVCanonical : RecordConfig :=
  { Type_ := "SRV", Name := "_sip._tcp", NameFQDN := "_sip._tcp.example.com",
    target := "sip.example.com", TTL := 600, MxPreference := 10, SrvPriority := 10,
    SrvWeight := 5, SrvPort := 5060, Original := some exampleSRV }

/-- The parameters `toReq` builds from `exampleSRVCanonical`: the priority is a string. -/
def exampleSRVParams : requestParams :=
  [("type", .str "SRV"), ("name", .str "_sip._tcp"), ("data", .str "5 5060 sip.example.com"),
   ("ttl", .num 600), ("priority", .str "10")]

/-- The native record decoded from `exampleSRVParams`: the priority is left 0. -/
def exampleSRVDecoded : domainRecord :=
  { Name := "_sip._tcp", Type_ := "SRV", Content := "5 5060 sip.example.com", TTL := 600 }

/-- An MX record with the priority 10 of `exampleSRV`, for comparison. -/
def exampleMX : domainRecord :=
  { ID := 8, Name := "@", Type_ := "MX", Content := "mail.example.com.", TTL := 600, Prio := 10 }

/-! ## Theorems -/

/-! ### Policy filter -/

theorem checkNSLoop_eq (zone : String) (l acc : List RecordConfig) (w : List String) :
    checkNSLoop zone l acc w =
      (acc ++ l.filter (fun r => !isApexNS zone r),
       w ++ (l.filter (fun r => isApexNS zone r && hasDefaultNSSuffix r)).map
         (fun r => nsWarning r.GetTargetField)) := by
  induction l generalizing acc w with
  | nil => simp [checkNSLoop]
  | cons r rest ih =>
    unfold checkNSLoop
    by_cases h1 : isApexNS zone r = true
    · have h1' := h1
      unfold isApexNS at h1'
      rw [if_pos h1']
      by_cases h2 : hasDefaultNSSuffix r = true
      · have h2' := h2
        unfold hasDefaultNSSuffix at h2'
        rw [if_pos h2', ih]
        simp [h1, h2]
      · have h2' := h2
        unfold hasDefaultNSSuffix at h2'
        rw [if_neg h2', ih]
        simp [h1, h2]
    · have h1' := h1
      unfold isApexNS at h1'
      rw [if_neg h1', ih]
      simp [h1]

theorem checkNSModifications_eq (dc : DomainConfig) :
    checkNSModifications dc =
      ({ dc with Records := dc.Records.filter (fun r => !isApexNS dc.Name r) },
       (dc.Records.filter (fun r => isApexNS dc.Name r && hasDefaultNSSuffix r)).map
         (fun r => nsWarning r.GetTargetField)) := by
  unfold checkNSModifications
  rw [checkNSLoop_eq]
  simp

/-- C1, as the claim states it, fails: an NS record at the apex of `example.com`
whose target `ns1.example.net.` does not end with `.binarylane.com.au` is not
kept; it is removed, and no warning is printed for it. -/
theorem checkNSModifications_drops_foreign_apex_ns :
    hasDefaultNSSuffix
        { Type_ := "NS", Name := "@", NameFQDN := "example.com", target := "ns1.example.net." } =
      false ∧
    checkNSModifications
        { Name := "example.com",
          Records := [{ Type_ := "NS", Name := "@", NameFQDN := "example.com",
                        target := "ns1.example.net." }] } =
      ({ Name := "example.com", Records := [] }, []) := by
  decide

/-- C1, amended: `checkNSModifications` removes exactly the records whose type
is NS and whose fully-qualified owner name equals the zone name, whatever their
target; every other record is kept in its original relative order; and the
warnings printed are, in order, one naming the target of each removed record
whose target ends with `.binarylane.com.au`. -/
theorem checkNSModifications_removes_apex_ns (dc : DomainConfig) :
    (checkNSModifications dc).1.Name = dc.Name ∧
    (checkNSModifications dc).1.Records =
      dc.Records.filter (fun r => decide (¬ (r.Type_ = "NS" ∧ r.NameFQDN = dc.Name))) ∧
    (checkNSModifications dc).2 =
      (dc.Records.filter (fun r => decide (r.Type_ = "NS" ∧ r.NameFQDN = dc.Name ∧
          strings.HasSuffix r.target ".binarylane.com.au" = true))).map
        (fun r => nsWarning r.target) := by
  rw [checkNSModifications_eq]
  refine ⟨rfl, ?_, ?_⟩
  · apply List.filter_congr
    intro r _
    by_cases ha : r.Type_ = "NS" <;> by_cases hb : r.NameFQDN = dc.Name <;>
      simp [isApexNS, RecordConfig.GetLabelFQDN, ha, hb]
  · simp only [RecordConfig.GetTargetField]
    congr 1
    apply List.filter_congr
    intro r _
    by_cases ha : r.Type_ = "NS" <;> by_cases hb : r.NameFQDN = dc.Name <;>
      simp [isApexNS, hasDefaultNSSuffix, RecordConfig.GetLabelFQDN,
        RecordConfig.GetTargetField, ha, hb]

theorem fixTTL_eq (t : Nat) : fixTTL t = if t < 600 then 600 else t := by
  unfold fixTTL minimumTTL
  split_ifs <;> omega

theorem prepare_eq (dc : DomainConfig) :
    prepare dc =
      ({ dc with
          Records := (dc.Records.filter (fun r => !isApexNS dc.Name r)).map
            (fun record => { record with TTL := fixTTL record.TTL }) },
       (dc.Records.filter (fun r => isApexNS dc.Name r && hasDefaultNSSuffix r)).map
         (fun r => nsWarning r.GetTargetField)) := by
  unfold prepare
  rw [checkNSModifications_eq]

/-- C8: `fixTTL t` is 600 when `t < 600` and `t` when `t ≥ 600`, so it is never
below `t` nor below 600; and `GetZoneRecordsCorrections` hands the differ, and
leaves in the domain, the records kept by `checkNSModifications` with `fixTTL`
applied to the TTL of each: the differ is consulted on that domain only. -/
theorem fixTTL_floor_applied_before_diff (t : Nat) (ByRecord : Differ) (dc : DomainConfig)
    (existingRecords : List RecordConfig) :
    fixTTL t = (if t < 600 then 600 else t) ∧ t ≤ fixTTL t ∧ 600 ≤ fixTTL t ∧
    (GetZoneRecordsCorrections ByRecord dc existingRecords).dc.Records =
      (checkNSModifications dc).1.Records.map (fun r => { r with TTL := fixTTL r.TTL }) ∧
    (∀ r ∈ (GetZoneRecordsCorrections ByRecord dc existingRecords).dc.Records, 600 ≤ r.TTL) ∧
    GetZoneRecordsCorrections ByRecord dc existingRecords =
      GetZoneRecordsCorrections
        (fun _ _ _ => ByRecord existingRecords
          (GetZoneRecordsCorrections ByRecord dc existingRecords).dc genComparable)
        dc existingRecords := by
  have hdc : (GetZoneRecordsCorrections ByRecord dc existingRecords).dc = (prepare dc).1 := by
    unfold GetZoneRecordsCorrections
    rcases hB : ByRecord existingRecords (prepare dc).1 genComparable with ⟨changes, n, _ | err⟩
    · simp only [hB]
      rcases planLoop (prepare dc).1.Name changes [] with p | (e | cs) <;> rfl
    · simp only [hB]
  have hfix : ∀ x : Nat, 600 ≤ fixTTL x := by
    intro x
    rw [fixTTL_eq]
    split_ifs <;> omega
  refine ⟨fixTTL_eq t, ?_, hfix t, ?_, ?_, ?_⟩
  · rw [fixTTL_eq]
    split_ifs <;> omega
  · rw [hdc]
    rfl
  · rw [hdc]
    intro r hr
    have hr' : r ∈ (checkNSModifications dc).1.Records.map
        (fun r => { r with TTL := fixTTL r.TTL }) := hr
    rw [List.mem_map] at hr'
    obtain ⟨r0, _, rfl⟩ := hr'
    exact hfix r0.TTL
  · rw [hdc]
    rfl

/-! ### Nameservers -/

/-- C5, the code at the input of the claim: for the upstream names `a.b.` and
`a.b-c`, `getNameservers` sorts first (`a.b-c` before `a.b.`) and strips the dot
afterwards, so it returns `a.b-c`, `a.b`, which is not in ascending order. -/
theorem getNameservers_result_not_sorted :
    getNameservers (.ok ["a.b.", "a.b-c"]) = .ok ["a.b-c", "a.b"] ∧
    ¬ List.Sorted sort.leString ["a.b-c", "a.b"] ∧
    sort.lessChars "a.b".data "a.b-c".data = true := by
  refine ⟨rfl, ?_, ?_⟩ <;> decide

/-! ### Record translator -/

theorem toRc_outcome (SetLabel : String → String → String × String) (domain : String)
    (r : domainRecord) :
    match toRc SetLabel domain r with
    | .error _ => (strings.Split r.Content ' ').length < requiredTokens r.Type_
    | .ok (_, err) =>
      err = none ∧ requiredTokens r.Type_ ≤ (strings.Split r.Content ' ').length := by
  unfold toRc
  simp only []
  split_ifs with h1 h2 hs h3 h4 h5 h6
  · simp [RecordConfig.SetTargetTXT, requiredTokens, h1]
  · rcases h2 with h | h | h | h <;> simp [RecordConfig.SetTarget, requiredTokens, h]
  · rcases h2 with h | h | h | h <;> simp [RecordConfig.SetTarget, requiredTokens, h]
  · rcases hc : strings.Split r.Content ' ' with _ | ⟨c0, _ | ⟨c1, _ | ⟨c2, t⟩⟩⟩ <;>
      simp [index, bind, Except.bind, pure, Except.pure, RecordConfig.SetTarget, requiredTokens,
        h3]
  · rcases hc : strings.Split r.Content ' ' with _ | ⟨c0, _ | ⟨c1, _ | ⟨c2, _ | ⟨c3, t⟩⟩⟩⟩ <;>
      simp [index, bind, Except.bind, pure, Except.pure, RecordConfig.SetTarget, requiredTokens,
        h4]
  · rcases hc : strings.Split r.Content ' ' with _ | ⟨c0, _ | ⟨c1, _ | ⟨c2, t⟩⟩⟩ <;>
      simp [index, bind, Except.bind, pure, Except.pure, RecordConfig.SetTarget, requiredTokens,
        h5]
  · rcases hc : strings.Split r.Content ' ' with _ | ⟨c0, _ | ⟨c1, _ | ⟨c2, t⟩⟩⟩ <;>
      rcases h6 with h | h <;>
      simp [index, bind, Except.bind, pure, Except.pure, RecordConfig.SetTarget, requiredTokens, h]
  · have h6a : ¬ r.Type_ = "HTTPS" := fun h => h6 (Or.inl h)
    have h6b : ¬ r.Type_ = "SVCB" := fun h => h6 (Or.inr h)
    simp [RecordConfig.SetTarget, requiredTokens, h3, h4, h5, h6a, h6b]

/-- C2, the code at a failing input: on a CAA record with content `0 issue`
(two tokens) `toRc` panics at the index `c[2]` instead of returning an error;
and on every native record `toRc` either panics, exactly when the content has
fewer tokens than the type requires, or returns a record with a nil error: it
never returns an error. -/
theorem toRc_panics_on_short_content (SetLabel : String → String → String × String)
    (domain : String) (r : domainRecord) :
    toRc SetLabel "example.com" { Type_ := "CAA", Content := "0 issue" } =
      .error "runtime error: index out of range" ∧
    (match toRc SetLabel domain r with
     | .error _ => (strings.Split r.Content ' ').length < requiredTokens r.Type_
     | .ok (_, err) =>
       err = none ∧ requiredTokens r.Type_ ≤ (strings.Split r.Content ' ').length) :=
  ⟨rfl, toRc_outcome SetLabel domain r⟩

/-- C10: `toReq` returns an error exactly when the record type is none of A,
AAAA, NS, ALIAS, CNAME, TXT, MX, SRV, CAA, TLSA, SVCB, HTTPS; and when it
succeeds the parameters hold `type` (the record type), `name` (the label), a
string `data` and `ttl` (the TTL). -/
theorem toReq_error_iff_unsupported (rc : RecordConfig) :
    match toReq rc with
    | .error _ => rc.Type_ ∉ supportedTypes
    | .ok req =>
      rc.Type_ ∈ supportedTypes ∧
      req.get? "type" = some (.str rc.Type_) ∧
      req.get? "name" = some (.str rc.GetLabel) ∧
      (∃ data, req.get? "data" = some (.str data)) ∧
      req.get? "ttl" = some (.num rc.TTL) := by
  unfold toReq supportedTypes
  simp only []
  split_ifs with h1 h2 h3 h4 h5 h6 h7
  all_goals simp [requestParams.set, requestParams.get?, List.lookup, *]
  all_goals tauto

/-! ### Decimal numbers: `strconv.ParseUint` against the verb `%d` -/

namespace strconv

theorem digitChar_isDigit (d : Nat) (h : d < 10) :
    (Nat.digitChar d).isDigit = true ∧ (Nat.digitChar d).toNat - '0'.toNat = d := by
  interval_cases d <;> decide

theorem cutoff_val : cutoff = 1844674407370955162 := by decide

theorem parseLoop_append (maxVal : Nat) (ds rest : List Char) (n : Nat) :
    parseLoop maxVal (ds ++ rest) n =
      match parseLoop maxVal ds n with
      | (m, none) => parseLoop maxVal rest m
      | (m, some e) => (m, some e) := by
  induction ds generalizing n with
  | nil => simp [parseLoop]
  | cons c cs ih =>
    simp only [List.cons_append, parseLoop]
    split_ifs <;> first | rfl | exact ih _

theorem parseLoop_digit (maxVal v d : Nat) (hd : d < 10) (hv : v * 10 + d ≤ maxVal)
    (hmax : maxVal < cutoff) :
    parseLoop maxVal [Nat.digitChar d] v = (v * 10 + d, none) := by
  have hc := cutoff_val
  obtain ⟨h1, h2⟩ := digitChar_isDigit d hd
  simp only [parseLoop, h1, h2, if_true]
  rw [if_neg (by omega), if_neg (by omega)]

/-- The digits written by `Nat.toDigitsCore` in base 10, read back by `parseLoop`. -/
theorem toDigitsCore_parse (maxVal : Nat) (hmax : maxVal < cutoff) (fuel : Nat) :
    ∀ n acc, n < fuel → ∃ ds, Nat.toDigitsCore 10 fuel n acc = ds ++ acc ∧ ds ≠ [] ∧
      (∀ c ∈ ds, c.isDigit = true) ∧
      (n ≤ maxVal → parseLoop maxVal ds 0 = (n, none)) := by
  induction fuel with
  | zero => intro n acc h; omega
  | succ fuel ih =>
    intro n acc hn
    have hd : n % 10 < 10 := Nat.mod_lt _ (by decide)
    unfold Nat.toDigitsCore
    simp only []
    by_cases h0 : n / 10 = 0
    · rw [if_pos h0]
      refine ⟨[Nat.digitChar (n % 10)], rfl, by simp, ?_, ?_⟩
      · intro c hc
        rw [List.mem_singleton] at hc
        rw [hc]
        exact (digitChar_isDigit _ hd).1
      · intro hle
        have := parseLoop_digit maxVal 0 (n % 10) hd (by omega) hmax
        rw [this]
        congr 1
        omega
    · rw [if_neg h0]
      obtain ⟨ds, hds, hne, hdig, hparse⟩ := ih (n / 10) (Nat.digitChar (n % 10) :: acc) (by omega)
      refine ⟨ds ++ [Nat.digitChar (n % 10)], by rw [hds]; simp, by simp, ?_, ?_⟩
      · intro c hc
        rw [List.mem_append, List.mem_singleton] at hc
        rcases hc with hc | hc
        · exact hdig c hc
        · rw [hc]; exact (digitChar_isDigit _ hd).1
      · intro hle
        rw [parseLoop_append, hparse (by omega)]
        simp only []
        rw [parseLoop_digit maxVal (n / 10) (n % 10) hd (by omega) hmax]
        congr 1
        omega

theorem repr_digits (n : Nat) : (Nat.repr n).data ≠ [] ∧ ∀ c ∈ (Nat.repr n).data, c.isDigit = true := by
  obtain ⟨ds, hds, hne, hdig, _⟩ := toDigitsCore_parse 0 (by decide) (n + 1) n [] (by omega)
  have : (Nat.repr n).data = ds := by
    simp [Nat.repr, Nat.toDigits, hds, List.asString]
  rw [this]
  exact ⟨hne, hdig⟩

theorem pow_sub_one_lt_cutoff (bitSize : Nat) (hb : bitSize ≤ 60) : 2 ^ bitSize - 1 < cutoff := by
  have h1 : 2 ^ bitSize ≤ 2 ^ 60 := Nat.pow_le_pow_right (by decide) hb
  rw [cutoff_val]
  omega

theorem ParseUint_repr (n bitSize : Nat) (hb : bitSize ≤ 60) (hn : n ≤ 2 ^ bitSize - 1) :
    ParseUint (Nat.repr n) bitSize = (n, none) := by
  obtain ⟨ds, hds, hne, _, hparse⟩ :=
    toDigitsCore_parse (2 ^ bitSize - 1) (pow_sub_one_lt_cutoff bitSize hb) (n + 1) n [] (by omega)
  have : (Nat.repr n).data = ds := by
    simp [Nat.repr, Nat.toDigits, hds, List.asString]
  unfold ParseUint
  rw [this, if_neg hne, hparse hn]

theorem parseLoop_value (maxVal : Nat) (cs : List Char) (n : Nat) (hn : n ≤ maxVal) :
    (parseLoop maxVal cs n).1 ≤ maxVal ∧
    ((parseLoop maxVal cs n).2 = some .ErrSyntax → (parseLoop maxVal cs n).1 = 0) ∧
    ((parseLoop maxVal cs n).2 = some .ErrRange → (parseLoop maxVal cs n).1 = maxVal) := by
  induction cs generalizing n with
  | nil => simp [parseLoop, hn]
  | cons c cs ih =>
    simp only [parseLoop]
    split_ifs with h1 h2 h3
    · simp
    · simp
    · exact ih _ (by omega)
    · simp

theorem ParseUint_value (s : String) (bitSize : Nat) :
    (ParseUint s bitSize).1 ≤ 2 ^ bitSize - 1 ∧
    ((ParseUint s bitSize).2 = some .ErrSyntax → (ParseUint s bitSize).1 = 0) ∧
    ((ParseUint s bitSize).2 = some .ErrRange → (ParseUint s bitSize).1 = 2 ^ bitSize - 1) := by
  unfold ParseUint
  split_ifs with h
  · simp
  · exact parseLoop_value _ _ _ (Nat.zero_le _)

end strconv

section
variable (SetLabel : String → String → String × String) (domain : String) (r : domainRecord)

theorem toRc_CAA (h : r.Type_ = "CAA") (c0 c1 c2 : String) (t : List String)
    (hc : strings.Split r.Content ' ' = c0 :: c1 :: c2 :: t) :
    toRc SetLabel domain r =
      .ok ({ baseRc SetLabel domain r with
              CaaFlag := (strconv.ParseUint c0 8).1 % 256
              CaaTag := c1
              target := strings.ReplaceAll c2 '"' "" }, none) := by
  unfold toRc
  simp [h, hc, index, bind, Except.bind, pure, Except.pure, RecordConfig.SetTarget, baseRc]

theorem toRc_TLSA (h : r.Type_ = "TLSA") (c0 c1 c2 c3 : String) (t : List String)
    (hc : strings.Split r.Content ' ' = c0 :: c1 :: c2 :: c3 :: t) :
    toRc SetLabel domain r =
      .ok ({ baseRc SetLabel domain r with
              TlsaUsage := (strconv.ParseUint c0 8).1 % 256
              TlsaSelector := (strconv.ParseUint c1 8).1 % 256
              TlsaMatchingType := (strconv.ParseUint c2 8).1 % 256
              target := c3 }, none) := by
  unfold toRc
  simp [h, hc, index, bind, Except.bind, pure, Except.pure, RecordConfig.SetTarget, baseRc]

theorem toRc_SRV (h : r.Type_ = "SRV") (c0 c1 c2 : String) (t : List String)
    (hc : strings.Split r.Content ' ' = c0 :: c1 :: c2 :: t) :
    toRc SetLabel domain r =
      .ok ({ baseRc SetLabel domain r with
              SrvWeight := (strconv.ParseUint c0 16).1 % 65536
              SrvPort := (strconv.ParseUint c1 16).1 % 65536
              target := c2 }, none) := by
  unfold toRc
  simp [h, hc, index, bind, Except.bind, pure, Except.pure, RecordConfig.SetTarget, baseRc]

theorem toRc_SVCB (h : r.Type_ = "HTTPS" ∨ r.Type_ = "SVCB") (c0 c1 c2 : String)
    (t : List String) (hc : strings.Split r.Content ' ' = c0 :: c1 :: c2 :: t) :
    toRc SetLabel domain r =
      .ok ({ baseRc SetLabel domain r with
              SvcPriority := (strconv.ParseUint c0 16).1 % 65536
              SvcParams := c2
              target := c1 }, none) := by
  unfold toRc
  rcases h with h | h <;>
    simp [h, hc, index, bind, Except.bind, pure, Except.pure, RecordConfig.SetTarget, baseRc]

theorem toRc_TXT (h : r.Type_ = "TXT") :
    toRc SetLabel domain r = .ok ({ baseRc SetLabel domain r with target := r.Content }, none) := by
  unfold toRc
  simp [h, RecordConfig.SetTargetTXT, baseRc]

theorem toRc_name (h : r.Type_ = "MX" ∨ r.Type_ = "CNAME" ∨ r.Type_ = "ALIAS" ∨ r.Type_ = "NS") :
    toRc SetLabel domain r =
      .ok ({ baseRc SetLabel domain r with
              target := if strings.HasSuffix r.Content "." then r.Content else r.Content ++ "." },
           none) := by
  unfold toRc
  rcases h with h | h | h | h <;>
    by_cases hs : strings.HasSuffix r.Content "." = true <;>
    simp [h, hs, RecordConfig.SetTarget, baseRc]

theorem toRc_default (h : r.Type_ = "A" ∨ r.Type_ = "AAAA") :
    toRc SetLabel domain r = .ok ({ baseRc SetLabel domain r with target := r.Content }, none) := by
  unfold toRc
  rcases h with h | h <;> simp [h, RecordConfig.SetTarget, baseRc]

end

theorem degrades_parse (tok : String) (bits : Nat) (m : Nat) (hm : 2 ^ bits = m) :
    degrades tok bits ((strconv.ParseUint tok bits).1 % m) := by
  obtain ⟨h1, h2, h3⟩ := strconv.ParseUint_value tok bits
  have hpos : 0 < 2 ^ bits := Nat.two_pow_pos bits
  have hmod : (strconv.ParseUint tok bits).1 % m = (strconv.ParseUint tok bits).1 :=
    Nat.mod_eq_of_lt (by omega)
  rw [hmod]
  exact ⟨h2, h3, fun _ => rfl⟩


/-- C3, as the claim states it, fails: the CAA flag token `256` does not parse as
an 8-bit number (range error) and the flag becomes 255, not 0; the SRV weight
token `70000` does not parse as a 16-bit number and the weight becomes 65535. -/
theorem toRc_out_of_range_token_saturates :
    (strconv.ParseUint "256" 8).2 = some .ErrRange ∧
    (toRc exampleSetLabel "example.com"
        { Type_ := "CAA", Content := "256 issue \"letsencrypt.org\"" }).toOption.map
      (fun p => (p.1.CaaFlag, p.2)) = some (255, none) ∧
    (strconv.ParseUint "70000" 16).2 = some .ErrRange ∧
    (toRc exampleSetLabel "example.com"
        { Type_ := "SRV", Content := "70000 5060 sip.example.com" }).toOption.map
      (fun p => (p.1.SrvWeight, p.2)) = some (65535, none) := by
  decide

/-- C3, amended: for every native record of type CAA, TLSA, SRV, SVCB or HTTPS
with the required number of tokens, `toRc` returns a record and a nil error, and
each numeric field holds what `strconv.ParseUint` returned for its token with
the error dropped: 0 after a syntax error, the largest value of the field's
width (255 for 8 bits, 65535 for 16 bits) after a range error, the number read
otherwise. -/
theorem toRc_numeric_tokens_degrade (SetLabel : String → String → String × String)
    (domain : String) (r : domainRecord)
    (htype : r.Type_ = "CAA" ∨ r.Type_ = "TLSA" ∨ r.Type_ = "SRV" ∨ r.Type_ = "SVCB" ∨
      r.Type_ = "HTTPS")
    (hlen : requiredTokens r.Type_ ≤ (strings.Split r.Content ' ').length) :
    ∃ rc, toRc SetLabel domain r = .ok (rc, none) ∧
      (r.Type_ = "CAA" → degrades (token r.Content 0) 8 rc.CaaFlag) ∧
      (r.Type_ = "TLSA" → degrades (token r.Content 0) 8 rc.TlsaUsage ∧
        degrades (token r.Content 1) 8 rc.TlsaSelector ∧
        degrades (token r.Content 2) 8 rc.TlsaMatchingType) ∧
      (r.Type_ = "SRV" → degrades (token r.Content 0) 16 rc.SrvWeight ∧
        degrades (token r.Content 1) 16 rc.SrvPort) ∧
      (r.Type_ = "SVCB" ∨ r.Type_ = "HTTPS" → degrades (token r.Content 0) 16 rc.SvcPriority) := by
  rcases htype with h | h | h | h | h
  · rcases hc : strings.Split r.Content ' ' with _ | ⟨c0, _ | ⟨c1, _ | ⟨c2, t⟩⟩⟩ <;>
      simp [requiredTokens, h, hc] at hlen
    refine ⟨_, toRc_CAA SetLabel domain r h c0 c1 c2 t hc, ?_, ?_, ?_, ?_⟩ <;>
      simp [h, token, hc, degrades_parse]
  · rcases hc : strings.Split r.Content ' ' with _ | ⟨c0, _ | ⟨c1, _ | ⟨c2, _ | ⟨c3, t⟩⟩⟩⟩ <;>
      simp [requiredTokens, h, hc] at hlen
    refine ⟨_, toRc_TLSA SetLabel domain r h c0 c1 c2 c3 t hc, ?_, ?_, ?_, ?_⟩ <;>
      simp [h, token, hc, degrades_parse]
  · rcases hc : strings.Split r.Content ' ' with _ | ⟨c0, _ | ⟨c1, _ | ⟨c2, t⟩⟩⟩ <;>
      simp [requiredTokens, h, hc] at hlen
    refine ⟨_, toRc_SRV SetLabel domain r h c0 c1 c2 t hc, ?_, ?_, ?_, ?_⟩ <;>
      simp [h, token, hc, degrades_parse]
  · rcases hc : strings.Split r.Content ' ' with _ | ⟨c0, _ | ⟨c1, _ | ⟨c2, t⟩⟩⟩ <;>
      simp [requiredTokens, h, hc] at hlen
    refine ⟨_, toRc_SVCB SetLabel domain r (Or.inr h) c0 c1 c2 t hc, ?_, ?_, ?_, ?_⟩ <;>
      simp [h, token, hc, degrades_parse]
  · rcases hc : strings.Split r.Content ' ' with _ | ⟨c0, _ | ⟨c1, _ | ⟨c2, t⟩⟩⟩ <;>
      simp [requiredTokens, h, hc] at hlen
    refine ⟨_, toRc_SVCB SetLabel domain r (Or.inl h) c0 c1 c2 t hc, ?_, ?_, ?_, ?_⟩ <;>
      simp [h, token, hc, degrades_parse]

/-- C3, amended, at the CAA record `256 issue "letsencrypt.org"`. -/
theorem toRc_numeric_tokens_degrade_witness :
    ∃ rc, toRc exampleSetLabel "example.com"
        { Type_ := "CAA", Content := "256 issue \"letsencrypt.org\"" } = .ok (rc, none) ∧
      degrades "256" 8 rc.CaaFlag :=
  let r : domainRecord := { Type_ := "CAA", Content := "256 issue \"letsencrypt.org\"" }
  match toRc_numeric_tokens_degrade exampleSetLabel "example.com" r (Or.inl rfl)
      (by decide) with
  | ⟨rc, h, hcaa, _⟩ => ⟨rc, h, hcaa rfl⟩

/-! ### Splitting and joining at spaces -/

namespace strings

theorem splitChars_ne_nil (sep : Char) (l : List Char) : splitChars sep l ≠ [] := by
  cases l with
  | nil => simp [splitChars]
  | cons c cs =>
    unfold splitChars
    split_ifs
    · simp
    · split <;> simp

theorem splitChars_of_not_mem (sep : Char) (a : List Char) (h : sep ∉ a) :
    splitChars sep a = [a] := by
  induction a with
  | nil => rfl
  | cons c cs ih =>
    have hc : c ≠ sep := fun e => h (by simp [e])
    have hcs : sep ∉ cs := fun e => h (List.mem_cons_of_mem _ e)
    unfold splitChars
    rw [if_neg hc, ih hcs]

theorem splitChars_append (sep : Char) (a b : List Char) (h : sep ∉ a) :
    splitChars sep (a ++ sep :: b) = a :: splitChars sep b := by
  induction a with
  | nil => simp [splitChars]
  | cons c cs ih =>
    have hc : c ≠ sep := fun e => h (by simp [e])
    have hcs : sep ∉ cs := fun e => h (List.mem_cons_of_mem _ e)
    rw [List.cons_append, splitChars, if_neg hc, ih hcs]

theorem not_mem_of_mem_splitChars (sep : Char) (l w : List Char) (hw : w ∈ splitChars sep l) :
    sep ∉ w := by
  induction l generalizing w with
  | nil =>
    simp [splitChars] at hw
    simp [hw]
  | cons c cs ih =>
    unfold splitChars at hw
    split_ifs at hw with hc
    · rcases List.mem_cons.mp hw with rfl | h
      · simp
      · exact ih w h
    · rcases hs : splitChars sep cs with _ | ⟨v, vs⟩
      · exact absurd hs (splitChars_ne_nil sep cs)
      · rw [hs] at hw
        simp only [List.mem_cons] at hw
        rcases hw with rfl | h
        · have hv : sep ∉ v := ih v (by rw [hs]; simp)
          intro hmem
          rcases List.mem_cons.mp hmem with e | e
          · exact hc e.symm
          · exact hv e
        · exact ih w (by rw [hs]; exact List.mem_cons_of_mem _ h)

theorem not_mem_of_mem_Split (s w : String) (hw : w ∈ Split s ' ') : ' ' ∉ w.data := by
  unfold Split at hw
  rw [List.mem_map] at hw
  obtain ⟨l, hl, rfl⟩ := hw
  exact not_mem_of_mem_splitChars ' ' s.data l hl

theorem Split_three (a b c : String) (ha : ' ' ∉ a.data) (hb : ' ' ∉ b.data)
    (hc : ' ' ∉ c.data) : Split (a ++ " " ++ b ++ " " ++ c) ' ' = [a, b, c] := by
  unfold Split
  have hd : (a ++ " " ++ b ++ " " ++ c).data = a.data ++ ' ' :: (b.data ++ ' ' :: c.data) := by
    simp [String.data_append]
  rw [hd, splitChars_append _ _ _ ha, splitChars_append _ _ _ hb, splitChars_of_not_mem _ _ hc]
  rfl

theorem Split_four (a b c d : String) (ha : ' ' ∉ a.data) (hb : ' ' ∉ b.data)
    (hc : ' ' ∉ c.data) (hd : ' ' ∉ d.data) :
    Split (a ++ " " ++ b ++ " " ++ c ++ " " ++ d) ' ' = [a, b, c, d] := by
  unfold Split
  have he : (a ++ " " ++ b ++ " " ++ c ++ " " ++ d).data =
      a.data ++ ' ' :: (b.data ++ ' ' :: (c.data ++ ' ' :: d.data)) := by
    simp [String.data_append]
  rw [he, splitChars_append _ _ _ ha, splitChars_append _ _ _ hb, splitChars_append _ _ _ hc,
    splitChars_of_not_mem _ _ hd]
  rfl

theorem ReplaceAll_data (s : String) (old : Char) :
    (ReplaceAll s old "").data = s.data.filter (fun c => decide (c ≠ old)) := by
  unfold ReplaceAll
  simp only []
  induction s.data with
  | nil => rfl
  | cons c cs ih =>
    rw [List.flatMap_cons, ih]
    by_cases h : c = old <;> simp [h]

theorem ReplaceAll_not_mem (s : String) (old : Char) : old ∉ (ReplaceAll s old "").data := by
  rw [ReplaceAll_data]
  simp

theorem ReplaceAll_subset (s : String) (old c : Char) (h : c ∉ s.data) :
    c ∉ (ReplaceAll s old "").data := by
  rw [ReplaceAll_data]
  intro hm
  exact h (List.mem_of_mem_filter hm)

theorem ReplaceAll_quoted (v : String) (h : '"' ∉ v.data) :
    ReplaceAll ("\"" ++ v ++ "\"") '"' "" = v := by
  have hd : (ReplaceAll ("\"" ++ v ++ "\"") '"' "").data = v.data := by
    rw [ReplaceAll_data]
    simp only [String.data_append]
    rw [List.filter_append, List.filter_append]
    have h2 : List.filter (fun c => decide (c ≠ '"')) v.data = v.data := by
      rw [List.filter_eq_self]
      intro c hc
      have : c ≠ '"' := fun e => h (e ▸ hc)
      simp [this]
    rw [h2]
    simp
  cases v
  exact congrArg String.mk hd

theorem HasSuffix_append_dot (s : String) : HasSuffix (s ++ ".") "." = true := by
  unfold HasSuffix
  rw [List.isSuffixOf_iff_suffix]
  exact ⟨s.data, by simp [String.data_append]⟩

end strings

theorem fmtD_no_space (n : Nat) : ' ' ∉ (fmtD n).data := by
  intro h
  have := (strconv.repr_digits n).2 ' ' h
  exact absurd this (by decide)

/-! ### CAA records -/

theorem toReq_CAA (rc : RecordConfig) (h : rc.Type_ = "CAA") :
    toReq rc = .ok [("type", .str "CAA"), ("name", .str rc.Name),
      ("data", .str (fmtD rc.CaaFlag ++ " " ++ rc.CaaTag ++ " \"" ++ rc.target ++ "\"")),
      ("ttl", .num rc.TTL)] := by
  unfold toReq
  simp [h, requestParams.set, RecordConfig.GetLabel, RecordConfig.GetTargetField]

/-- C9: for a flag `f` in 0..255 written in decimal, and a tag and a value
without space or double quote, `toRc` on the CAA content `f tag "value"` gives
CAA flag `f`, CAA tag `tag` and target `value`, and `toReq` of that record gives
back the content as `data`. -/
theorem caa_parse_and_reencode (SetLabel : String → String → String × String)
    (domain : String) (r : domainRecord) (f : Nat) (tag value : String) (hf : f ≤ 255)
    (htag : ' ' ∉ tag.data ∧ '"' ∉ tag.data) (hval : ' ' ∉ value.data ∧ '"' ∉ value.data) :
    ∃ rc req,
      toRc SetLabel domain
        { r with Type_ := "CAA", Content := fmtD f ++ " " ++ tag ++ " \"" ++ value ++ "\"" } =
          .ok (rc, none) ∧
      rc.CaaFlag = f ∧ rc.CaaTag = tag ∧ rc.target = value ∧
      toReq rc = .ok req ∧
      req.get? "data" = some (.str (fmtD f ++ " " ++ tag ++ " \"" ++ value ++ "\"")) := by
  have hq : ' ' ∉ ("\"" ++ value ++ "\"").data := by
    simp only [String.data_append, List.mem_append]
    rintro ((h | h) | h)
    · exact absurd h (by decide)
    · exact hval.1 h
    · exact absurd h (by decide)
  have hcontent : fmtD f ++ " " ++ tag ++ " \"" ++ value ++ "\"" =
      fmtD f ++ " " ++ tag ++ " " ++ ("\"" ++ value ++ "\"") := by
    have : (" \"" : String) = " " ++ "\"" := by decide
    rw [this]
    simp only [String.append_assoc]
  have hsplit := strings.Split_three (fmtD f) tag ("\"" ++ value ++ "\"") (fmtD_no_space f)
    htag.1 hq
  rw [← hcontent] at hsplit
  have hrc := toRc_CAA SetLabel domain
    { r with Type_ := "CAA", Content := fmtD f ++ " " ++ tag ++ " \"" ++ value ++ "\"" } rfl
    (fmtD f) tag ("\"" ++ value ++ "\"") [] hsplit
  have hflag : (strconv.ParseUint (fmtD f) 8).1 % 256 = f := by
    unfold fmtD
    rw [strconv.ParseUint_repr f 8 (by decide) (by simpa using hf)]
    exact Nat.mod_eq_of_lt (by omega)
  rw [hflag, strings.ReplaceAll_quoted value hval.2] at hrc
  refine ⟨_, _, hrc, rfl, rfl, rfl, toReq_CAA _ rfl, ?_⟩
  simp [requestParams.get?, List.lookup]

/-- C9 at the content `0 issue "letsencrypt.org"`. -/
theorem caa_parse_and_reencode_witness :
    ∃ rc req,
      toRc exampleSetLabel "example.com"
        { Type_ := "CAA", Content := "0 issue \"letsencrypt.org\"" } = .ok (rc, none) ∧
      rc.CaaFlag = 0 ∧ rc.CaaTag = "issue" ∧ rc.target = "letsencrypt.org" ∧
      toReq rc = .ok req ∧
      req.get? "data" = some (.str "0 issue \"letsencrypt.org\"") :=
  caa_parse_and_reencode exampleSetLabel "example.com" {} 0 "issue" "letsencrypt.org"
    (by decide) (by decide) (by decide)

/-! ### Correction planner -/

theorem verbs_distinct :
    REPORT ≠ CREATE ∧ REPORT ≠ CHANGE ∧ REPORT ≠ DELETE ∧ CREATE ≠ CHANGE ∧ CREATE ≠ DELETE ∧
      CHANGE ≠ DELETE := by
  decide

theorem planChange_REPORT (zone : String) (ch : Change) (h : ch.Type_ = REPORT) :
    planChange zone ch = .ok (.next { Msg := ch.MsgsJoined, F := none }) := by
  unfold planChange
  rw [if_pos h]

theorem planChange_CREATE (zone : String) (ch : Change) (h : ch.Type_ = CREATE) :
    planChange zone ch =
      match ch.New with
      | [] => .error "runtime error: index out of range"
      | new0 :: _ =>
        match toReq new0 with
        | .error err => .ok (.fail err)
        | .ok req =>
          match ch.Msgs with
          | [] => .error "runtime error: index out of range"
          | msg :: _ => .ok (.next { Msg := msg, F := some (.createRecord zone req) }) := by
  unfold planChange
  have h1 : ¬ ch.Type_ = REPORT := by rw [h]; decide
  rw [if_neg h1, if_pos h]
  rcases ch.New with _ | ⟨new0, t⟩
  · rfl
  · rcases hq : toReq new0 with err | req
    · simp [first, bind, Except.bind, hq, pure, Except.pure]
    · rcases ch.Msgs with _ | ⟨msg, ms⟩ <;>
        simp [first, bind, Except.bind, hq, pure, Except.pure, index]

theorem planChange_CHANGE (zone : String) (ch : Change) (h : ch.Type_ = CHANGE) :
    planChange zone ch =
      match ch.Old with
      | [] => .error "runtime error: index out of range"
      | old0 :: _ =>
        match old0.Original with
        | none => .error "interface conversion: interface is nil, not *binarylane.domainRecord"
        | some r =>
          match ch.New with
          | [] => .error "runtime error: index out of range"
          | new0 :: _ =>
            match toReq new0 with
            | .error err => .ok (.fail err)
            | .ok req =>
              match ch.Msgs with
              | [] => .error "runtime error: index out of range"
              | msg :: _ =>
                .ok (.next { Msg := msg ++ ", binarylane ID: " ++ strconv.Itoa r.ID,
                             F := some (.modifyRecord zone r.ID req) }) := by
  unfold planChange
  have h1 : ¬ ch.Type_ = REPORT := by rw [h]; decide
  have h2 : ¬ ch.Type_ = CREATE := by rw [h]; decide
  rw [if_neg h1, if_neg h2, if_pos h]
  rcases ch.Old with _ | ⟨old0, t⟩
  · rfl
  · rcases ho : old0.Original with _ | r
    · simp [first, originalID, ho, bind, Except.bind]
    · rcases ch.New with _ | ⟨new0, t⟩
      · simp [first, originalID, ho, bind, Except.bind]
      · rcases hq : toReq new0 with err | req
        · simp [first, originalID, ho, bind, Except.bind, hq, pure, Except.pure]
        · rcases ch.Msgs with _ | ⟨msg, ms⟩ <;>
            simp [first, originalID, ho, bind, Except.bind, hq, pure, Except.pure, index]

theorem planChange_DELETE (zone : String) (ch : Change) (h : ch.Type_ = DELETE) :
    planChange zone ch =
      match ch.Old with
      | [] => .error "runtime error: index out of range"
      | old0 :: _ =>
        match old0.Original with
        | none => .error "interface conversion: interface is nil, not *binarylane.domainRecord"
        | some r =>
          match ch.Msgs with
          | [] => .error "runtime error: index out of range"
          | msg :: _ =>
            .ok (.next { Msg := msg ++ ", binarylane ID: " ++ strconv.Itoa r.ID,
                         F := some (.deleteRecord zone r.ID) }) := by
  unfold planChange
  have h1 : ¬ ch.Type_ = REPORT := by rw [h]; decide
  have h2 : ¬ ch.Type_ = CREATE := by rw [h]; decide
  have h3 : ¬ ch.Type_ = CHANGE := by rw [h]; decide
  rw [if_neg h1, if_neg h2, if_neg h3, if_pos h]
  rcases ch.Old with _ | ⟨old0, t⟩
  · rfl
  · rcases ho : old0.Original with _ | r
    · simp [first, originalID, ho, bind, Except.bind]
    · rcases ch.Msgs with _ | ⟨msg, ms⟩ <;>
        simp [first, originalID, ho, bind, Except.bind, pure, Except.pure, index]

theorem planChange_cases (zone : String) (ch : Change) :
    (∀ e, planChange zone ch = .ok (.fail e) → ch.toReqFails = true) ∧
    (∀ c, planChange zone ch = .ok (.next c) → ch.toReqFails = false) ∧
    (ch.wellFormed = true → ∀ p, planChange zone ch ≠ .error p) := by
  obtain ⟨d1, d2, d3, d4, d5, d6⟩ := verbs_distinct
  by_cases hR : ch.Type_ = REPORT
  · rw [planChange_REPORT zone ch hR]
    simp [Change.toReqFails, hR, d1, d2]
  by_cases hC : ch.Type_ = CREATE
  · rw [planChange_CREATE zone ch hC]
    unfold Change.wellFormed Change.toReqFails
    rcases ch.New with _ | ⟨new0, t⟩
    · simp [hC, d1.symm, d4, d5]
    · rcases hq : toReq new0 with err | req
      · simp [hC, hq, Except.toBool]
      · rcases ch.Msgs with _ | ⟨msg, ms⟩ <;> simp [hC, hq, Except.toBool, d1.symm, d4, d5]
  by_cases hM : ch.Type_ = CHANGE
  · rw [planChange_CHANGE zone ch hM]
    unfold Change.wellFormed Change.toReqFails
    rcases ch.Old with _ | ⟨old0, t⟩
    · simp [hM, d2.symm, d4.symm, d6]
    · rcases ho : old0.Original with _ | r
      · simp [hM, ho, d2.symm, d4.symm, d6]
      · rcases ch.New with _ | ⟨new0, t⟩
        · simp [hM, ho, d2.symm, d4.symm, d6]
        · rcases hq : toReq new0 with err | req
          · simp [hM, ho, hq, Except.toBool]
          · rcases ch.Msgs with _ | ⟨msg, ms⟩ <;>
              simp [hM, ho, hq, Except.toBool, d2.symm, d4.symm, d6]
  by_cases hD : ch.Type_ = DELETE
  · rw [planChange_DELETE zone ch hD]
    unfold Change.wellFormed Change.toReqFails
    rcases ch.Old with _ | ⟨old0, t⟩
    · simp [hD, d3.symm, d5.symm, d6.symm]
    · rcases ho : old0.Original with _ | r
      · simp [hD, ho, d3.symm, d5.symm, d6.symm]
      · rcases ch.Msgs with _ | ⟨msg, ms⟩ <;> simp [hD, ho, d3.symm, d5.symm, d6.symm]
  · have hp : planChange zone ch = .error ("unhandled change.Type " ++ strconv.Itoa ch.Type_) := by
      unfold planChange
      rw [if_neg hR, if_neg hC, if_neg hM, if_neg hD]
    rw [hp]
    simp [Change.wellFormed, hR, hC, hM, hD]

theorem planLoop_ok (zone : String) (changes : List Change) (acc out : List Correction)
    (h : planLoop zone changes acc = .ok (.ok out)) :
    ∃ corrs, out = acc ++ corrs ∧
      List.Forall₂ (fun ch c => planChange zone ch = .ok (.next c)) changes corrs := by
  induction changes generalizing acc with
  | nil =>
    simp only [planLoop, Except.ok.injEq] at h
    exact ⟨[], by simp [h], List.Forall₂.nil⟩
  | cons ch rest ih =>
    unfold planLoop at h
    rcases hp : planChange zone ch with p | (c | e)
    · rw [hp] at h
      simp at h
    · rw [hp] at h
      obtain ⟨corrs, ho, hf⟩ := ih (acc ++ [c]) h
      exact ⟨c :: corrs, by simp [ho], List.Forall₂.cons hp hf⟩
    · rw [hp] at h
      simp at h

theorem planLoop_err (zone : String) (changes : List Change) (acc : List Correction)
    (e : GoError) (h : planLoop zone changes acc = .ok (.error e)) :
    ∃ ch ∈ changes, planChange zone ch = .ok (.fail e) := by
  induction changes generalizing acc with
  | nil => simp [planLoop] at h
  | cons ch rest ih =>
    unfold planLoop at h
    rcases hp : planChange zone ch with p | (c | e')
    · rw [hp] at h
      simp at h
    · rw [hp] at h
      obtain ⟨ch', hm, hf⟩ := ih (acc ++ [c]) h
      exact ⟨ch', List.mem_cons_of_mem _ hm, hf⟩
    · rw [hp] at h
      simp only [Except.ok.injEq, Except.error.injEq] at h
      exact ⟨ch, List.mem_cons_self _ _, by rw [hp, h]⟩

theorem planLoop_no_panic (zone : String) (changes : List Change) (acc : List Correction)
    (hwf : ∀ ch ∈ changes, ch.wellFormed = true) (p : String) :
    planLoop zone changes acc ≠ .error p := by
  induction changes generalizing acc with
  | nil => simp [planLoop]
  | cons ch rest ih =>
    unfold planLoop
    rcases hp : planChange zone ch with q | (c | e')
    · exact absurd hp ((planChange_cases zone ch).2.2 (hwf ch (List.mem_cons_self _ _)) q)
    · exact ih (acc ++ [c]) (fun ch' hm => hwf ch' (List.mem_cons_of_mem _ hm))
    · simp

theorem forall₂_exists_of_mem {α β : Type} {R : α → β → Prop} {l₁ : List α} {l₂ : List β}
    (h : List.Forall₂ R l₁ l₂) {a : α} (ha : a ∈ l₁) : ∃ b, b ∈ l₂ ∧ R a b := by
  induction h with
  | nil => simp at ha
  | cons hab _ ih =>
    rcases List.mem_cons.mp ha with rfl | hm
    · exact ⟨_, List.mem_cons_self _ _, hab⟩
    · obtain ⟨b, hb, hr⟩ := ih hm
      exact ⟨b, List.mem_cons_of_mem _ hb, hr⟩

theorem prepare_name (dc : DomainConfig) : (prepare dc).1.Name = dc.Name := by
  rw [prepare_eq]

theorem GetZoneRecordsCorrections_result (ByRecord : Differ) (dc : DomainConfig)
    (existingRecords : List RecordConfig) (changes : List Change) (n : Int)
    (hdiff : ByRecord existingRecords (prepare dc).1 genComparable = (changes, n, none)) :
    (GetZoneRecordsCorrections ByRecord dc existingRecords).result =
      match planLoop dc.Name changes [] with
      | .error p => .error p
      | .ok (.error err) => .ok ([], 0, some err)
      | .ok (.ok corrections) => .ok (corrections, n, none) := by
  unfold GetZoneRecordsCorrections
  simp only [hdiff, prepare_name]
  rcases planLoop dc.Name changes [] with p | (e | cs) <;> rfl

/-- C6: when the differ returns change groups and no error, then
`GetZoneRecordsCorrections` either returns an error with no corrections and a
zero count, and `toReq` fails for the new record of some CREATE or CHANGE
group; or `toReq` fails for none of them and it returns, with a nil error, one
correction per change group, the `i`-th being the one planned for the `i`-th
group. -/
theorem corrections_all_or_nothing (ByRecord : Differ) (dc : DomainConfig)
    (existingRecords : List RecordConfig) (changes : List Change) (n : Int)
    (hdiff : ByRecord existingRecords (prepare dc).1 genComparable = (changes, n, none))
    (hwf : ∀ ch ∈ changes, ch.wellFormed = true) :
    ((∃ ch ∈ changes, ch.toReqFails = true) ∧
      ∃ err, (GetZoneRecordsCorrections ByRecord dc existingRecords).result =
        .ok ([], 0, some err)) ∨
    ((∀ ch ∈ changes, ch.toReqFails = false) ∧
      ∃ corrs, (GetZoneRecordsCorrections ByRecord dc existingRecords).result =
          .ok (corrs, n, none) ∧
        corrs.length = changes.length ∧
        List.Forall₂ (fun ch c => planChange dc.Name ch = .ok (.next c)) changes corrs) := by
  rw [GetZoneRecordsCorrections_result ByRecord dc existingRecords changes n hdiff]
  rcases hl : planLoop dc.Name changes [] with p | (e | cs)
  · exact absurd hl (planLoop_no_panic dc.Name changes [] hwf p)
  · left
    obtain ⟨ch, hm, hf⟩ := planLoop_err dc.Name changes [] e hl
    exact ⟨⟨ch, hm, (planChange_cases dc.Name ch).1 e hf⟩, e, rfl⟩
  · right
    obtain ⟨corrs, ho, hf⟩ := planLoop_ok dc.Name changes [] cs hl
    rw [List.nil_append] at ho
    subst ho
    refine ⟨?_, cs, rfl, hf.length_eq.symm, hf⟩
    intro ch hm
    obtain ⟨c, _, hc⟩ := forall₂_exists_of_mem hf hm
    exact (planChange_cases dc.Name ch).2.1 c hc

/-- C6 on the worked example.  With the PTR record desired, the change groups
are CHANGE, CREATE, CREATE (PTR), DELETE: `toReq` fails at the third group after
two corrections were planned, and an error with no corrections and a zero count
is returned.  Without it the groups are CHANGE, CREATE, DELETE and the three
corrections are returned in that order with the count of the differ. -/
theorem corrections_all_or_nothing_witness :
    (GetZoneRecordsCorrections exampleDiffer exampleDesiredPtr
        [exampleExisting, exampleExistingOld]).result =
      .ok ([], 0, some "binarylane.toReq rtype \"PTR\" unimplemented") ∧
    (((∃ ch ∈ [exampleChange, exampleCreate, exampleCreatePtr, exampleDelete],
        ch.toReqFails = true) ∧
      ∃ err, (GetZoneRecordsCorrections exampleDiffer exampleDesiredPtr
          [exampleExisting, exampleExistingOld]).result = .ok ([], 0, some err)) ∨
     ((∀ ch ∈ [exampleChange, exampleCreate, exampleCreatePtr, exampleDelete],
        ch.toReqFails = false) ∧
      ∃ corrs, (GetZoneRecordsCorrections exampleDiffer exampleDesiredPtr
            [exampleExisting, exampleExistingOld]).result = .ok (corrs, 4, none) ∧
        corrs.length = [exampleChange, exampleCreate, exampleCreatePtr, exampleDelete].length ∧
        List.Forall₂ (fun ch c => planChange exampleDesiredPtr.Name ch = .ok (.next c))
          [exampleChange, exampleCreate, exampleCreatePtr, exampleDelete] corrs)) ∧
    (GetZoneRecordsCorrections exampleDiffer exampleDesired
        [exampleExisting, exampleExistingOld]).result = .ok (exampleCorrections, 3, none) ∧
    (((∃ ch ∈ [exampleChange, exampleCreate, exampleDelete], ch.toReqFails = true) ∧
      ∃ err, (GetZoneRecordsCorrections exampleDiffer exampleDesired
          [exampleExisting, exampleExistingOld]).result = .ok ([], 0, some err)) ∨
     ((∀ ch ∈ [exampleChange, exampleCreate, exampleDelete], ch.toReqFails = false) ∧
      ∃ corrs, (GetZoneRecordsCorrections exampleDiffer exampleDesired
            [exampleExisting, exampleExistingOld]).result = .ok (corrs, 3, none) ∧
        corrs.length = [exampleChange, exampleCreate, exampleDelete].length ∧
        List.Forall₂ (fun ch c => planChange exampleDesired.Name ch = .ok (.next c))
          [exampleChange, exampleCreate, exampleDelete] corrs)) :=
  ⟨rfl,
    corrections_all_or_nothing exampleDiffer exampleDesiredPtr
      [exampleExisting, exampleExistingOld]
      [exampleChange, exampleCreate, exampleCreatePtr, exampleDelete] 4 rfl (by decide),
    rfl,
    corrections_all_or_nothing exampleDiffer exampleDesired
      [exampleExisting, exampleExistingOld]
      [exampleChange, exampleCreate, exampleDelete] 3 rfl (by decide)⟩

theorem toRc_original (SetLabel : String → String → String × String) (domain : String)
    (r : domainRecord) (rc : RecordConfig) (e : Option GoError)
    (h : toRc SetLabel domain r = .ok (rc, e)) : rc.Original = some r := by
  unfold toRc at h
  simp only [] at h
  split_ifs at h with h1 h2 hs h3 h4 h5 h6
  · simp [RecordConfig.SetTargetTXT] at h
    rw [← h.1]
  · simp [RecordConfig.SetTarget] at h
    rw [← h.1]
  · simp [RecordConfig.SetTarget] at h
    rw [← h.1]
  · rcases hc : strings.Split r.Content ' ' with _ | ⟨c0, _ | ⟨c1, _ | ⟨c2, t⟩⟩⟩ <;>
      simp [hc, index, bind, Except.bind, pure, Except.pure, RecordConfig.SetTarget] at h
    rw [← h.1]
  · rcases hc : strings.Split r.Content ' ' with _ | ⟨c0, _ | ⟨c1, _ | ⟨c2, _ | ⟨c3, t⟩⟩⟩⟩ <;>
      simp [hc, index, bind, Except.bind, pure, Except.pure, RecordConfig.SetTarget] at h
    rw [← h.1]
  · rcases hc : strings.Split r.Content ' ' with _ | ⟨c0, _ | ⟨c1, _ | ⟨c2, t⟩⟩⟩ <;>
      simp [hc, index, bind, Except.bind, pure, Except.pure, RecordConfig.SetTarget] at h
    rw [← h.1]
  · rcases hc : strings.Split r.Content ' ' with _ | ⟨c0, _ | ⟨c1, _ | ⟨c2, t⟩⟩⟩ <;>
      simp [hc, index, bind, Except.bind, pure, Except.pure, RecordConfig.SetTarget] at h
    rw [← h.1]
  · simp [RecordConfig.SetTarget] at h
    rw [← h.1]

theorem forall₂_get? {α β : Type} {R : α → β → Prop} {l₁ : List α} {l₂ : List β}
    (h : List.Forall₂ R l₁ l₂) (i : Nat) (a : α) (ha : l₁.get? i = some a) :
    ∃ b, l₂.get? i = some b ∧ R a b := by
  induction h generalizing i with
  | nil => simp at ha
  | cons hab _ ih =>
    cases i with
    | zero =>
      simp only [List.get?_cons_zero, Option.some.injEq] at ha
      subst ha
      exact ⟨_, rfl, hab⟩
    | succ j => exact ih j ha

/-- C7: when the differ returns well-formed change groups for none of which
`toReq` fails, `GetZoneRecordsCorrections` returns corrections, and for a
CHANGE or DELETE group at position `i` whose existing record was built by
`toRc` from a native record `r`, the `i`-th correction has the description
`<message>, binarylane ID: <r.ID>` and the operation
`modifyRecord(zone, r.ID, toReq(new))` for CHANGE, `deleteRecord(zone, r.ID)`
for DELETE, the zone being the name of the desired zone. -/
theorem change_and_delete_use_native_id (SetLabel : String → String → String × String)
    (domain : String) (r : domainRecord) (old0 : RecordConfig) (e : Option GoError)
    (hrc : toRc SetLabel domain r = .ok (old0, e))
    (ByRecord : Differ) (dc : DomainConfig) (existingRecords : List RecordConfig)
    (changes : List Change) (n : Int)
    (hdiff : ByRecord existingRecords (prepare dc).1 genComparable = (changes, n, none))
    (hwf : ∀ ch ∈ changes, ch.wellFormed = true)
    (hok : ∀ ch ∈ changes, ch.toReqFails = false)
    (i : Nat) (ch : Change) (hi : changes.get? i = some ch)
    (hold : ch.Old.head? = some old0)
    (hty : ch.Type_ = CHANGE ∨ ch.Type_ = DELETE) :
    ∃ corrs msg,
      (GetZoneRecordsCorrections ByRecord dc existingRecords).result = .ok (corrs, n, none) ∧
      ch.Msgs.head? = some msg ∧
      ((ch.Type_ = CHANGE ∧ ∃ new0 req,
          ch.New.head? = some new0 ∧ toReq new0 = .ok req ∧
          corrs.get? i = some
            { Msg := msg ++ ", binarylane ID: " ++ strconv.Itoa r.ID,
              F := some (.modifyRecord dc.Name r.ID req) }) ∨
       (ch.Type_ = DELETE ∧
          corrs.get? i = some
            { Msg := msg ++ ", binarylane ID: " ++ strconv.Itoa r.ID,
              F := some (.deleteRecord dc.Name r.ID) })) := by
  have horig := toRc_original SetLabel domain r old0 e hrc
  rw [GetZoneRecordsCorrections_result ByRecord dc existingRecords changes n hdiff]
  rcases hl : planLoop dc.Name changes [] with p | (e' | cs)
  · exact absurd hl (planLoop_no_panic dc.Name changes [] hwf p)
  · obtain ⟨ch', hm, hf⟩ := planLoop_err dc.Name changes [] e' hl
    have h1 := (planChange_cases dc.Name ch').1 e' hf
    rw [hok ch' hm] at h1
    exact absurd h1 (by decide)
  obtain ⟨corrs, ho, hf⟩ := planLoop_ok dc.Name changes [] cs hl
  rw [List.nil_append] at ho
  subst ho
  obtain ⟨c, hci, hc⟩ := forall₂_get? hf i ch hi
  rcases hO : ch.Old with _ | ⟨o, os⟩
  · rw [hO] at hold
    simp at hold
  rw [hO] at hold
  simp only [List.head?_cons, Option.some.injEq] at hold
  subst hold
  rcases hty with hT | hT
  · rw [planChange_CHANGE dc.Name ch hT, hO] at hc
    simp only [horig] at hc
    rcases hN : ch.New with _ | ⟨new0, t⟩
    · rw [hN] at hc
      simp at hc
    rw [hN] at hc
    dsimp only at hc
    rcases hq : toReq new0 with err | req
    · rw [hq] at hc
      simp at hc
    rw [hq] at hc
    dsimp only at hc
    rcases hM : ch.Msgs with _ | ⟨msg, ms⟩
    · rw [hM] at hc
      simp at hc
    rw [hM] at hc
    simp only [Except.ok.injEq, Step.next.injEq] at hc
    exact ⟨cs, msg, rfl, rfl, Or.inl ⟨hT, new0, req, rfl, hq, by rw [hci, ← hc]⟩⟩
  · rw [planChange_DELETE dc.Name ch hT, hO] at hc
    simp only [horig] at hc
    rcases hM : ch.Msgs with _ | ⟨msg, ms⟩
    · rw [hM] at hc
      simp at hc
    rw [hM] at hc
    simp only [Except.ok.injEq, Step.next.injEq] at hc
    exact ⟨cs, msg, rfl, rfl, Or.inr ⟨hT, by rw [hci, ← hc]⟩⟩

/-- C7 on the worked example: existing `www A 1.2.3.4` with identifier 10 and
`old A 1.1.1.1` with identifier 20, desired `www A 1.2.3.5` and `api A 9.9.9.9`.
The CHANGE correction at position 0 names identifier 10 and is
`modifyRecord("example.com", 10, ...)` with `data` equal to `1.2.3.5`; the
DELETE correction at position 2 names identifier 20 and is
`deleteRecord("example.com", 20)`. -/
theorem change_and_delete_use_native_id_witness :
    toRc exampleSetLabel "example.com" exampleNative = .ok (exampleExisting, none) ∧
    toRc exampleSetLabel "example.com" exampleNativeOld = .ok (exampleExistingOld, none) ∧
    (GetZoneRecordsCorrections exampleDiffer exampleDesired
        [exampleExisting, exampleExistingOld]).result = .ok (exampleCorrections, 3, none) ∧
    exampleCorrections.get? 0 = some
      { Msg := "CHANGE www.example.com A (1.2.3.4) -> (1.2.3.5), binarylane ID: 10",
        F := some (.modifyRecord "example.com" 10
          [("type", .str "A"), ("name", .str "www"), ("data", .str "1.2.3.5"),
           ("ttl", .num 600)]) } ∧
    exampleCorrections.get? 2 = some
      { Msg := "DELETE old.example.com A 1.1.1.1, binarylane ID: 20",
        F := some (.deleteRecord "example.com" 20) } ∧
    (∃ corrs msg,
      (GetZoneRecordsCorrections exampleDiffer exampleDesired
        [exampleExisting, exampleExistingOld]).result = .ok (corrs, 3, none) ∧
      exampleChange.Msgs.head? = some msg ∧
      ((exampleChange.Type_ = CHANGE ∧ ∃ new0 req,
          exampleChange.New.head? = some new0 ∧ toReq new0 = .ok req ∧
          corrs.get? 0 = some
            { Msg := msg ++ ", binarylane ID: " ++ strconv.Itoa exampleNative.ID,
              F := some (.modifyRecord exampleDesired.Name exampleNative.ID req) }) ∨
       (exampleChange.Type_ = DELETE ∧
          corrs.get? 0 = some
            { Msg := msg ++ ", binarylane ID: " ++ strconv.Itoa exampleNative.ID,
              F := some (.deleteRecord exampleDesired.Name exampleNative.ID) }))) ∧
    (∃ corrs msg,
      (GetZoneRecordsCorrections exampleDiffer exampleDesired
        [exampleExisting, exampleExistingOld]).result = .ok (corrs, 3, none) ∧
      exampleDelete.Msgs.head? = some msg ∧
      ((exampleDelete.Type_ = CHANGE ∧ ∃ new0 req,
          exampleDelete.New.head? = some new0 ∧ toReq new0 = .ok req ∧
          corrs.get? 2 = some
            { Msg := msg ++ ", binarylane ID: " ++ strconv.Itoa exampleNativeOld.ID,
              F := some (.modifyRecord exampleDesired.Name exampleNativeOld.ID req) }) ∨
       (exampleDelete.Type_ = DELETE ∧
          corrs.get? 2 = some
            { Msg := msg ++ ", binarylane ID: " ++ strconv.Itoa exampleNativeOld.ID,
              F := some (.deleteRecord exampleDesired.Name exampleNativeOld.ID) }))) :=
  ⟨rfl, rfl, rfl, rfl, rfl,
    change_and_delete_use_native_id exampleSetLabel "example.com" exampleNative exampleExisting
      none rfl exampleDiffer exampleDesired [exampleExisting, exampleExistingOld]
      [exampleChange, exampleCreate, exampleDelete] 3 rfl (by decide) (by decide) 0
      exampleChange rfl rfl (Or.inl rfl),
    change_and_delete_use_native_id exampleSetLabel "example.com" exampleNativeOld
      exampleExistingOld none rfl exampleDiffer exampleDesired
      [exampleExisting, exampleExistingOld]
      [exampleChange, exampleCreate, exampleDelete] 3 rfl (by decide) (by decide) 2
      exampleDelete rfl rfl (Or.inr rfl)⟩

/-! ### Round trip through `toReq` -/

theorem uint32_idem (x : Int) : uint32 ((uint32 x : Nat) : Int) = uint32 x := by
  unfold uint32
  omega

theorem uint16_idem (x : Int) : uint16 ((uint16 x : Nat) : Int) = uint16 x := by
  unfold uint16
  omega

theorem uint16_lt (x : Int) : uint16 x < 65536 := by
  unfold uint16
  omega

theorem uint32_int32 (x : Int) (h0 : 0 ≤ x) (h1 : x < 2 ^ 31) :
    (-2147483648 : Int) ≤ (uint32 x : Int) ∧ ((uint32 x : Nat) : Int) < 2147483648 := by
  unfold uint32
  omega

theorem uint16_int32 (x : Int) :
    (-2147483648 : Int) ≤ (uint16 x : Int) ∧ ((uint16 x : Nat) : Int) < 2147483648 := by
  unfold uint16
  omega

section
variable (SetLabel : String → String → String × String) (domain : String) (r : domainRecord)

theorem roundTrips_default (h : r.Type_ = "A" ∨ r.Type_ = "AAAA")
    (hwf : r.wellFormed SetLabel domain) : roundTrips SetLabel domain r := by
  obtain ⟨_, _, ht0, ht1, hl⟩ := hwf
  have hrc := toRc_default SetLabel domain r h
  have hreq : toReq { baseRc SetLabel domain r with target := r.Content } =
      .ok [("type", .str r.Type_), ("name", .str (SetLabel r.Name domain).1),
        ("data", .str r.Content), ("ttl", .num (uint32 r.TTL))] := by
    unfold toReq
    rcases h with h | h <;>
      simp [h, baseRc, RecordConfig.GetLabel, RecordConfig.GetTargetField]
  have hnat : native [("type", .str r.Type_), ("name", .str (SetLabel r.Name domain).1),
        ("data", .str r.Content), ("ttl", .num (uint32 r.TTL))] =
      (({ Name := (SetLabel r.Name domain).1, Type_ := r.Type_, Content := r.Content,
          TTL := uint32 r.TTL } : domainRecord), none) := by
    simp [native, requestParams.get?, List.lookup, decodeString, decodeInt32, decodeInt64,
      uint32_int32 r.TTL ht0 ht1, uint16_int32 r.Prio]
  have hrc' := toRc_default SetLabel domain
    { Name := (SetLabel r.Name domain).1, Type_ := r.Type_, Content := r.Content,
      TTL := uint32 r.TTL } h
  refine ⟨_, _, _, _, hrc, hreq, hnat, hrc', ?_, ?_⟩
  · rcases h with h | h <;> simp [h, sameOwnFields, baseRc, hl, uint32_idem]
  · intro hz
    obtain ⟨hp, hw, hf⟩ := hz
    rcases h with h | h <;> simp [h] at hp hw hf <;>
      simp [h, sameCanonical, baseRc, hl, uint32_idem, hp, hw, hf]

theorem roundTrips_TXT (h : r.Type_ = "TXT") (hwf : r.wellFormed SetLabel domain) :
    roundTrips SetLabel domain r := by
  obtain ⟨_, _, ht0, ht1, hl⟩ := hwf
  have hrc := toRc_TXT SetLabel domain r h
  have hreq : toReq { baseRc SetLabel domain r with target := r.Content } =
      .ok [("type", .str r.Type_), ("name", .str (SetLabel r.Name domain).1),
        ("data", .str r.Content), ("ttl", .num (uint32 r.TTL))] := by
    unfold toReq
    simp [h, baseRc, RecordConfig.GetLabel, RecordConfig.GetTargetField,
      RecordConfig.GetTargetTXTJoined, requestParams.set]
  have hnat : native [("type", .str r.Type_), ("name", .str (SetLabel r.Name domain).1),
        ("data", .str r.Content), ("ttl", .num (uint32 r.TTL))] =
      (({ Name := (SetLabel r.Name domain).1, Type_ := r.Type_, Content := r.Content,
          TTL := uint32 r.TTL } : domainRecord), none) := by
    simp [native, requestParams.get?, List.lookup, decodeString, decodeInt32, decodeInt64,
      uint32_int32 r.TTL ht0 ht1, uint16_int32 r.Prio]
  have hrc' := toRc_TXT SetLabel domain
    { Name := (SetLabel r.Name domain).1, Type_ := r.Type_, Content := r.Content,
      TTL := uint32 r.TTL } h
  refine ⟨_, _, _, _, hrc, hreq, hnat, hrc', ?_, ?_⟩
  · simp [h, sameOwnFields, baseRc, hl, uint32_idem]
  · intro hz
    obtain ⟨hp, hw, hf⟩ := hz
    simp [h] at hp hw hf
    simp [h, sameCanonical, baseRc, hl, uint32_idem, hp, hw, hf]

theorem HasSuffix_dotted (content : String) : strings.HasSuffix (dotted content) "." = true := by
  unfold dotted
  split_ifs with hs
  · exact hs
  · exact strings.HasSuffix_append_dot content

theorem dotted_dotted (content : String) : dotted (dotted content) = dotted content := by
  have h : ∀ s : String, strings.HasSuffix s "." = true → dotted s = s := by
    intro s hs
    unfold dotted
    rw [if_pos hs]
  exact h _ (HasSuffix_dotted content)

theorem roundTrips_name (h : r.Type_ = "CNAME" ∨ r.Type_ = "ALIAS" ∨ r.Type_ = "NS")
    (hwf : r.wellFormed SetLabel domain) : roundTrips SetLabel domain r := by
  obtain ⟨_, _, ht0, ht1, hl⟩ := hwf
  have h' : r.Type_ = "MX" ∨ r.Type_ = "CNAME" ∨ r.Type_ = "ALIAS" ∨ r.Type_ = "NS" := Or.inr h
  have hrc : toRc SetLabel domain r =
      .ok ({ baseRc SetLabel domain r with target := dotted r.Content }, none) :=
    toRc_name SetLabel domain r h'
  have hreq : toReq { baseRc SetLabel domain r with target := dotted r.Content } =
      .ok [("type", .str r.Type_), ("name", .str (SetLabel r.Name domain).1),
        ("data", .str (dotted r.Content)), ("ttl", .num (uint32 r.TTL))] := by
    unfold toReq
    rcases h with h | h | h <;>
      simp [h, baseRc, RecordConfig.GetLabel, RecordConfig.GetTargetField]
  have hnat : native [("type", .str r.Type_), ("name", .str (SetLabel r.Name domain).1),
        ("data", .str (dotted r.Content)), ("ttl", .num (uint32 r.TTL))] =
      (({ Name := (SetLabel r.Name domain).1, Type_ := r.Type_, Content := dotted r.Content,
          TTL := uint32 r.TTL } : domainRecord), none) := by
    simp [native, requestParams.get?, List.lookup, decodeString, decodeInt32, decodeInt64,
      uint32_int32 r.TTL ht0 ht1, uint16_int32 r.Prio]
  have hrc' : toRc SetLabel domain
      { Name := (SetLabel r.Name domain).1, Type_ := r.Type_, Content := dotted r.Content,
        TTL := uint32 r.TTL } = .ok (_, none) :=
    toRc_name SetLabel domain
      { Name := (SetLabel r.Name domain).1, Type_ := r.Type_, Content := dotted r.Content,
        TTL := uint32 r.TTL } h'
  refine ⟨_, _, _, _, hrc, hreq, hnat, hrc', ?_, ?_⟩
  · rcases h with h | h | h <;>
      simp [h, sameOwnFields, baseRc, hl, uint32_idem, HasSuffix_dotted]
  · intro hz
    obtain ⟨hp, hw, hf⟩ := hz
    rcases h with h | h | h <;> simp [h] at hp hw hf <;>
      simp [h, sameCanonical, baseRc, hl, uint32_idem, hp, hw, hf, HasSuffix_dotted]

theorem roundTrips_MX (h : r.Type_ = "MX") (hwf : r.wellFormed SetLabel domain) :
    roundTrips SetLabel domain r := by
  obtain ⟨_, _, ht0, ht1, hl⟩ := hwf
  have h' : r.Type_ = "MX" ∨ r.Type_ = "CNAME" ∨ r.Type_ = "ALIAS" ∨ r.Type_ = "NS" := Or.inl h
  have hrc : toRc SetLabel domain r =
      .ok ({ baseRc SetLabel domain r with target := dotted r.Content }, none) :=
    toRc_name SetLabel domain r h'
  have hreq : toReq { baseRc SetLabel domain r with target := dotted r.Content } =
      .ok [("type", .str r.Type_), ("name", .str (SetLabel r.Name domain).1),
        ("data", .str (dotted r.Content)), ("ttl", .num (uint32 r.TTL)),
        ("priority", .num (uint16 r.Prio))] := by
    unfold toReq
    simp [h, baseRc, RecordConfig.GetLabel, RecordConfig.GetTargetField, requestParams.set]
  have hnat : native [("type", .str r.Type_), ("name", .str (SetLabel r.Name domain).1),
        ("data", .str (dotted r.Content)), ("ttl", .num (uint32 r.TTL)),
        ("priority", .num (uint16 r.Prio))] =
      (({ Name := (SetLabel r.Name domain).1, Type_ := r.Type_, Content := dotted r.Content,
          TTL := uint32 r.TTL, Prio := uint16 r.Prio } : domainRecord), none) := by
    simp [native, requestParams.get?, List.lookup, decodeString, decodeInt32, decodeInt64,
      uint32_int32 r.TTL ht0 ht1, uint16_int32 r.Prio]
  have hrc' : toRc SetLabel domain
      { Name := (SetLabel r.Name domain).1, Type_ := r.Type_, Content := dotted r.Content,
        TTL := uint32 r.TTL, Prio := uint16 r.Prio } = .ok (_, none) :=
    toRc_name SetLabel domain
      { Name := (SetLabel r.Name domain).1, Type_ := r.Type_, Content := dotted r.Content,
        TTL := uint32 r.TTL, Prio := uint16 r.Prio } h'
  refine ⟨_, _, _, _, hrc, hreq, hnat, hrc', ?_, ?_⟩
  · simp [h, sameOwnFields, baseRc, hl, uint32_idem, uint16_idem, HasSuffix_dotted]
  · intro hz
    obtain ⟨hp, hw, hf⟩ := hz
    simp [h] at hp hw hf
    simp [h, sameCanonical, baseRc, hl, uint32_idem, uint16_idem, hp, hw, hf,
      HasSuffix_dotted]

theorem parse_fmtD (v bits m : Nat) (hm : m = 2 ^ bits) (hb : bits ≤ 60) (hv : v < m) :
    (strconv.ParseUint (fmtD v) bits).1 % m = v := by
  unfold fmtD
  rw [strconv.ParseUint_repr v bits hb (by omega)]
  exact Nat.mod_eq_of_lt hv

theorem split_tokens (content : String) (c : List String)
    (hc : strings.Split content ' ' = c) : ∀ w ∈ c, ' ' ∉ w.data := by
  intro w hw
  exact strings.not_mem_of_mem_Split content w (by rw [hc]; exact hw)

theorem Split_quoted (a b v : String) (ha : ' ' ∉ a.data) (hb : ' ' ∉ b.data)
    (hv : ' ' ∉ v.data) :
    strings.Split (a ++ " " ++ b ++ " \"" ++ v ++ "\"") ' ' = [a, b, "\"" ++ v ++ "\""] := by
  have hq : ' ' ∉ ("\"" ++ v ++ "\"").data := by
    simp only [String.data_append, List.mem_append]
    rintro ((h | h) | h)
    · exact absurd h (by decide)
    · exact hv h
    · exact absurd h (by decide)
  have hcontent : a ++ " " ++ b ++ " \"" ++ v ++ "\"" = a ++ " " ++ b ++ " " ++ ("\"" ++ v ++ "\"") := by
    have : (" \"" : String) = " " ++ "\"" := by decide
    rw [this]
    simp only [String.append_assoc]
  rw [hcontent]
  exact strings.Split_three a b _ ha hb hq

theorem roundTrips_CAA (h : r.Type_ = "CAA") (hwf : r.wellFormed SetLabel domain) :
    roundTrips SetLabel domain r := by
  obtain ⟨_, hlen, ht0, ht1, hl⟩ := hwf
  rcases hc : strings.Split r.Content ' ' with _ | ⟨c0, _ | ⟨c1, _ | ⟨c2, t⟩⟩⟩ <;>
    simp [requiredTokens, h, hc] at hlen
  have hsp := split_tokens r.Content _ hc
  have hf : (strconv.ParseUint c0 8).1 % 256 < 256 := Nat.mod_lt _ (by decide)
  have hvs : ' ' ∉ (strings.ReplaceAll c2 '"' "").data :=
    strings.ReplaceAll_subset c2 '"' ' ' (hsp c2 (by simp))
  have hvq : '"' ∉ (strings.ReplaceAll c2 '"' "").data := strings.ReplaceAll_not_mem c2 '"'
  have hrc := toRc_CAA SetLabel domain r h c0 c1 c2 t hc
  have hreq : toReq { baseRc SetLabel domain r with
        CaaFlag := (strconv.ParseUint c0 8).1 % 256
        CaaTag := c1
        target := strings.ReplaceAll c2 '"' "" } =
      .ok [("type", .str r.Type_), ("name", .str (SetLabel r.Name domain).1),
        ("data", .str (fmtD ((strconv.ParseUint c0 8).1 % 256) ++ " " ++ c1 ++ " \"" ++
          strings.ReplaceAll c2 '"' "" ++ "\"")),
        ("ttl", .num (uint32 r.TTL))] := by
    unfold toReq
    simp [h, baseRc, RecordConfig.GetLabel, RecordConfig.GetTargetField, requestParams.set]
  have hnat : native [("type", .str r.Type_), ("name", .str (SetLabel r.Name domain).1),
        ("data", .str (fmtD ((strconv.ParseUint c0 8).1 % 256) ++ " " ++ c1 ++ " \"" ++
          strings.ReplaceAll c2 '"' "" ++ "\"")),
        ("ttl", .num (uint32 r.TTL))] =
      (({ Name := (SetLabel r.Name domain).1, Type_ := r.Type_,
          Content := fmtD ((strconv.ParseUint c0 8).1 % 256) ++ " " ++ c1 ++ " \"" ++
          strings.ReplaceAll c2 '"' "" ++ "\"",
          TTL := uint32 r.TTL } : domainRecord), none) := by
    simp [native, requestParams.get?, List.lookup, decodeString, decodeInt32, decodeInt64,
      uint32_int32 r.TTL ht0 ht1, uint16_int32 r.Prio]
  have hrc' := toRc_CAA SetLabel domain
    { Name := (SetLabel r.Name domain).1, Type_ := r.Type_,
      Content := fmtD ((strconv.ParseUint c0 8).1 % 256) ++ " " ++ c1 ++ " \"" ++
        strings.ReplaceAll c2 '"' "" ++ "\"",
      TTL := uint32 r.TTL } h _ _ _ []
    (Split_quoted _ _ _ (fmtD_no_space _) (hsp c1 (by simp)) hvs)
  refine ⟨_, _, _, _, hrc, hreq, hnat, hrc', ?_, ?_⟩
  · simp [h, sameOwnFields, baseRc, hl, uint32_idem, strings.ReplaceAll_quoted _ hvq,
      parse_fmtD _ 8 256 (by decide) (by decide) hf]
  · intro hz
    obtain ⟨hzp, hzw, hzf⟩ := hz
    simp [h] at hzp hzw hzf
    simp [h, sameCanonical, baseRc, hl, uint32_idem, hzp, hzw, strings.ReplaceAll_quoted _ hvq,
      parse_fmtD _ 8 256 (by decide) (by decide) hf]

theorem roundTrips_TLSA (h : r.Type_ = "TLSA") (hwf : r.wellFormed SetLabel domain) :
    roundTrips SetLabel domain r := by
  obtain ⟨_, hlen, ht0, ht1, hl⟩ := hwf
  rcases hc : strings.Split r.Content ' ' with _ | ⟨c0, _ | ⟨c1, _ | ⟨c2, _ | ⟨c3, t⟩⟩⟩⟩ <;>
    simp [requiredTokens, h, hc] at hlen
  have hsp := split_tokens r.Content _ hc
  have h0 : (strconv.ParseUint c0 8).1 % 256 < 256 := Nat.mod_lt _ (by decide)
  have h1 : (strconv.ParseUint c1 8).1 % 256 < 256 := Nat.mod_lt _ (by decide)
  have h2 : (strconv.ParseUint c2 8).1 % 256 < 256 := Nat.mod_lt _ (by decide)
  have hrc := toRc_TLSA SetLabel domain r h c0 c1 c2 c3 t hc
  have hreq : toReq { baseRc SetLabel domain r with
        TlsaUsage := (strconv.ParseUint c0 8).1 % 256
        TlsaSelector := (strconv.ParseUint c1 8).1 % 256
        TlsaMatchingType := (strconv.ParseUint c2 8).1 % 256
        target := c3 } =
      .ok [("type", .str r.Type_), ("name", .str (SetLabel r.Name domain).1),
        ("data", .str (fmtD ((strconv.ParseUint c0 8).1 % 256) ++ " " ++
          fmtD ((strconv.ParseUint c1 8).1 % 256) ++ " " ++
          fmtD ((strconv.ParseUint c2 8).1 % 256) ++ " " ++ c3)),
        ("ttl", .num (uint32 r.TTL))] := by
    unfold toReq
    simp [h, baseRc, RecordConfig.GetLabel, RecordConfig.GetTargetField, requestParams.set]
  have hnat : native [("type", .str r.Type_), ("name", .str (SetLabel r.Name domain).1),
        ("data", .str (fmtD ((strconv.ParseUint c0 8).1 % 256) ++ " " ++
          fmtD ((strconv.ParseUint c1 8).1 % 256) ++ " " ++
          fmtD ((strconv.ParseUint c2 8).1 % 256) ++ " " ++ c3)),
        ("ttl", .num (uint32 r.TTL))] =
      (({ Name := (SetLabel r.Name domain).1, Type_ := r.Type_,
          Content := fmtD ((strconv.ParseUint c0 8).1 % 256) ++ " " ++
          fmtD ((strconv.ParseUint c1 8).1 % 256) ++ " " ++
          fmtD ((strconv.ParseUint c2 8).1 % 256) ++ " " ++ c3,
          TTL := uint32 r.TTL } : domainRecord), none) := by
    simp [native, requestParams.get?, List.lookup, decodeString, decodeInt32, decodeInt64,
      uint32_int32 r.TTL ht0 ht1, uint16_int32 r.Prio]
  have hrc' := toRc_TLSA SetLabel domain
    { Name := (SetLabel r.Name domain).1, Type_ := r.Type_,
      Content := fmtD ((strconv.ParseUint c0 8).1 % 256) ++ " " ++
        fmtD ((strconv.ParseUint c1 8).1 % 256) ++ " " ++
        fmtD ((strconv.ParseUint c2 8).1 % 256) ++ " " ++ c3,
      TTL := uint32 r.TTL } h _ _ _ _ []
    (strings.Split_four _ _ _ _ (fmtD_no_space _) (fmtD_no_space _) (fmtD_no_space _)
      (hsp c3 (by simp)))
  refine ⟨_, _, _, _, hrc, hreq, hnat, hrc', ?_, ?_⟩
  · simp [h, sameOwnFields, baseRc, hl, uint32_idem,
      parse_fmtD _ 8 256 (by decide) (by decide) h0,
      parse_fmtD _ 8 256 (by decide) (by decide) h1,
      parse_fmtD _ 8 256 (by decide) (by decide) h2]
  · intro hz
    obtain ⟨hzp, hzw, hzf⟩ := hz
    simp [h] at hzp hzw hzf
    simp [h, sameCanonical, baseRc, hl, uint32_idem, hzp, hzw, hzf,
      parse_fmtD _ 8 256 (by decide) (by decide) h0,
      parse_fmtD _ 8 256 (by decide) (by decide) h1,
      parse_fmtD _ 8 256 (by decide) (by decide) h2]

theorem roundTrips_SVCB (h : r.Type_ = "HTTPS" ∨ r.Type_ = "SVCB")
    (hwf : r.wellFormed SetLabel domain) : roundTrips SetLabel domain r := by
  obtain ⟨_, hlen, ht0, ht1, hl⟩ := hwf
  have hreqd : requiredTokens r.Type_ = 3 := by
    rcases h with h | h <;> simp [requiredTokens, h]
  rw [hreqd] at hlen
  rcases hc : strings.Split r.Content ' ' with _ | ⟨c0, _ | ⟨c1, _ | ⟨c2, t⟩⟩⟩ <;>
    simp [hc] at hlen
  have hsp := split_tokens r.Content _ hc
  have h0 : (strconv.ParseUint c0 16).1 % 65536 < 65536 := Nat.mod_lt _ (by decide)
  have hrc := toRc_SVCB SetLabel domain r h c0 c1 c2 t hc
  have hreq : toReq { baseRc SetLabel domain r with
        SvcPriority := (strconv.ParseUint c0 16).1 % 65536
        SvcParams := c2
        target := c1 } =
      .ok [("type", .str r.Type_), ("name", .str (SetLabel r.Name domain).1),
        ("data", .str (fmtD ((strconv.ParseUint c0 16).1 % 65536) ++ " " ++ c1 ++ " " ++ c2)),
        ("ttl", .num (uint32 r.TTL))] := by
    unfold toReq
    rcases h with h | h <;>
      simp [h, baseRc, RecordConfig.GetLabel, RecordConfig.GetTargetField, requestParams.set]
  have hnat : native [("type", .str r.Type_), ("name", .str (SetLabel r.Name domain).1),
        ("data", .str (fmtD ((strconv.ParseUint c0 16).1 % 65536) ++ " " ++ c1 ++ " " ++ c2)),
        ("ttl", .num (uint32 r.TTL))] =
      (({ Name := (SetLabel r.Name domain).1, Type_ := r.Type_,
          Content := fmtD ((strconv.ParseUint c0 16).1 % 65536) ++ " " ++ c1 ++ " " ++ c2,
          TTL := uint32 r.TTL } : domainRecord), none) := by
    simp [native, requestParams.get?, List.lookup, decodeString, decodeInt32, decodeInt64,
      uint32_int32 r.TTL ht0 ht1, uint16_int32 r.Prio]
  have hrc' := toRc_SVCB SetLabel domain
    { Name := (SetLabel r.Name domain).1, Type_ := r.Type_,
      Content := fmtD ((strconv.ParseUint c0 16).1 % 65536) ++ " " ++ c1 ++ " " ++ c2,
      TTL := uint32 r.TTL } h _ _ _ []
    (strings.Split_three _ _ _ (fmtD_no_space _) (hsp c1 (by simp)) (hsp c2 (by simp)))
  refine ⟨_, _, _, _, hrc, hreq, hnat, hrc', ?_, ?_⟩
  · rcases h with h | h <;>
      simp [h, sameOwnFields, baseRc, hl, uint32_idem,
        parse_fmtD _ 16 65536 (by decide) (by decide) h0]
  · intro hz
    obtain ⟨hzp, hzw, hzf⟩ := hz
    rcases h with h | h <;> simp [h] at hzp hzw hzf <;>
      simp [h, sameCanonical, baseRc, hl, uint32_idem, hzp, hzw, hzf,
        parse_fmtD _ 16 65536 (by decide) (by decide) h0]

end

/-- Every well-formed native record of a supported type other than SRV goes
round: `toRc` succeeds, `toReq` succeeds, the parameters decode as a native
record without error, `toRc` succeeds on it, and the two canonical records
agree on type, label, TTL, target and the fields of the type; on every
type-specific field when the record carries nothing in the fields its type
does not use. -/
theorem roundTrips_except_SRV (SetLabel : String → String → String × String)
    (domain : String) (r : domainRecord) (hwf : r.wellFormed SetLabel domain)
    (hsrv : r.Type_ ≠ "SRV") : roundTrips SetLabel domain r := by
  have hmem := hwf.1
  simp only [supportedTypes, List.mem_cons, List.mem_singleton, List.not_mem_nil, or_false]
    at hmem
  rcases hmem with h | h | h | h | h | h | h | h | h | h | h | h
  · exact roundTrips_default SetLabel domain r (Or.inl h) hwf
  · exact roundTrips_default SetLabel domain r (Or.inr h) hwf
  · exact roundTrips_name SetLabel domain r (Or.inr (Or.inr h)) hwf
  · exact roundTrips_name SetLabel domain r (Or.inr (Or.inl h)) hwf
  · exact roundTrips_name SetLabel domain r (Or.inl h) hwf
  · exact roundTrips_TXT SetLabel domain r h hwf
  · exact roundTrips_MX SetLabel domain r h hwf
  · exact absurd h hsrv
  · exact roundTrips_CAA SetLabel domain r h hwf
  · exact roundTrips_TLSA SetLabel domain r h hwf
  · exact roundTrips_SVCB SetLabel domain r (Or.inr h) hwf
  · exact roundTrips_SVCB SetLabel domain r (Or.inl h) hwf

/-- C4, the code at a failing input: the well-formed SRV record
`5 5060 sip.example.com` with priority 10 becomes a canonical record with SRV
priority 10; `toReq` writes that priority as the string `10`, where the MX case
writes the number 10; decoded as a native record the string is a type error
and the priority is left 0; so `toRc` of the record read back has SRV priority
0, not 10, while weight, port and target are kept. -/
theorem srv_priority_lost_in_round_trip :
    exampleSRV.wellFormed exampleSetLabel "example.com" ∧ exampleSRV.unusedFieldsZero ∧
    toRc exampleSetLabel "example.com" exampleSRV = .ok (exampleSRVCanonical, none) ∧
    toReq exampleSRVCanonical = .ok exampleSRVParams ∧
    exampleSRVParams.get? "priority" = some (.str "10") ∧
    native exampleSRVParams =
      (exampleSRVDecoded,
       some "json: cannot unmarshal value into Go struct field of domainRecord") ∧
    toRc exampleSetLabel "example.com" exampleSRVDecoded =
      .ok ({ exampleSRVCanonical with
              MxPreference := 0, SrvPriority := 0, Original := some exampleSRVDecoded }, none) ∧
    ¬ sameOwnFields exampleSRVCanonical
        { exampleSRVCanonical with
            MxPreference := 0, SrvPriority := 0, Original := some exampleSRVDecoded } ∧
    ((toRc exampleSetLabel "example.com" exampleMX).toOption.bind
        (fun p => (toReq p.1).toOption.bind (fun req => req.get? "priority"))) =
      some (.num 10) := by
  refine ⟨⟨by decide, by decide, by decide, by decide, by decide⟩,
    ⟨by decide, by decide, by decide⟩, rfl, rfl, rfl, rfl, rfl, ?_, rfl⟩
  intro h
  have h1 := h.2.2.2.2.2.2.1 rfl
  exact absurd h1.1 (by decide)

end binarylane
